import Mathlib

/-!
# Quasar: transaction coalescer, GC entry point and request dispatch

A shallow embedding of `quasar.go` (the coalescer `InsertValues` / `Flush` / timer
goroutine, `QueryGeneration`, `UnlinkBlocks`) and of three handlers of
`cpinterface.go` (`dispatchCommands`), followed by the properties proved about them.

Conventions of the embedding.
* Go pointers to `openTree` are indices into `Quasar.heap`; the map `openTrees` holds
  such indices, and so does every timer goroutine (the captured variable `ot`).
* The block store and the tree package are not part of the embedded sources.  Every
  call of `openTree.Commit` is recorded in the log `Quasar.committed`; whether the write
  tree of the call opens is read from `Quasar.bs`, and a call that panics leaves its
  error in `Quasar.panicked`.  For the GC entry point the block store is an interface of
  functions (`BlockStore`).
* `uint64` values are natural numbers; the conversion `int(x)` of a `uint64` is the
  two's complement reading on 64 bits (`toInt`).
* A Go `error` is `Option Error`, `none` being `nil`.
-/

namespace QuasarSpec

/-! ## Data model -/

/-- Stream identifier (`uuid.UUID`, 128 bits). -/
abbrev UUID := Nat

/-- The tree record `qtree.Record`: `Time` is an `int64`, `Val` the bit pattern of a
`float64`. -/
structure Record where
  Time : Int
  Val : Nat
deriving DecidableEq, Repr

/-- The statistical record `qtree.StatRecord`; the three `float64` fields are carried as
bit patterns. -/
structure StatRecord where
  Time : Int
  Count : Nat
  Min : Nat
  Mean : Nat
  Max : Nat
deriving DecidableEq, Repr

/-- The errors that the embedded code distinguishes; `other` stands for any further
error value of the tree package. -/
inductive Error where
  | ErrNoSuchStream
  | ErrNoSuchPoint
  | other (code : Nat)
deriving DecidableEq, Repr

/-- Superblock as far as `quasar.go` reads it: `Gen()` and `MIBID()`. -/
structure Superblock where
  Gen : Nat
  MIBID : Nat
deriving DecidableEq, Repr

/-- Modelled from the spec: `bstore.UUIDToMapKey` is not among the embedded sources; the
spec keys the per-stream state by the stream id, so the key is the 128-bit id itself. -/
def UUIDToMapKey (id : UUID) : Nat := id

/-- The buffer `openTree` (ll. 12-17).  `exmtx` is `true` while the mutex is held. -/
structure openTree where
  expired : Bool
  store : List Record
  id : UUID
  exmtx : Bool
deriving DecidableEq, Repr

/-- The configuration `QuasarConfig` (ll. 49-69). -/
structure QuasarConfig where
  DatablockCacheSize : Nat
  TransactionCoalesceEnable : Bool
  TransactionCoalesceInterval : Nat
  TransactionCoalesceEarlyTrip : Nat
  MongoURI : String
  BlockPath : String
deriving DecidableEq, Repr

/-- The value `DefaultQuasarConfig` (ll. 71-78). -/
def DefaultQuasarConfig : QuasarConfig where
  DatablockCacheSize := 65526
  TransactionCoalesceEnable := true
  TransactionCoalesceInterval := 5000
  TransactionCoalesceEarlyTrip := 16384
  MongoURI := "localhost"
  BlockPath := "/srv/quasar/"

/-- The engine state `Quasar` (ll. 33-40).  `heap` holds the `openTree` objects that
have been allocated and `openTrees` maps a stream key to the index of its buffer.
`committed` lists, in call order, the stream id and record slice of every call of
`openTree.Commit`.  `bs` is the block store as far as the coalescer depends on it: the
error, if any, that `qtree.NewWriteQTree(q.bs, id)` returns, given what has been handed
to the tree so far.  `panicked` holds the error with which the process has panicked
(`log.Panic`), if it has. -/
structure Quasar where
  cfg : QuasarConfig
  bs : List (UUID × List Record) → UUID → Option Error
  openTrees : Nat → Option Nat
  heap : List openTree
  committed : List (UUID × List Record)
  panicked : Option Error

/-- How a call that has a result ends: it returns its error value, or it panics. -/
inductive Ending where
  | returns (err : Option Error)
  | panics (err : Error)
deriving DecidableEq, Repr

/-- Conversion `int(x)` of a `uint64` on a 64-bit platform. -/
def toInt (x : Nat) : Int :=
  if x % 2 ^ 64 < 2 ^ 63 then ((x % 2 ^ 64 : Nat) : Int) else ((x % 2 ^ 64 : Nat) : Int) - 2 ^ 64

/-! ## The coalescer -/

/-- The constructor `newOpenTree` (ll. 42-47): an empty, open buffer. -/
def newOpenTree (id : UUID) : openTree :=
  { expired := false, store := [], id := id, exmtx := false }

/-- The call `qtree.NewWriteQTree(q.bs, id)` of l. 25: the error it returns, `none` when
the write tree opens. -/
def NewWriteQTree (q : Quasar) (id : UUID) : Option Error :=
  q.bs q.committed id

/-- The method `openTree.Commit` (ll. 24-31).  The log records the call.  When
`NewWriteQTree` returns an error the call panics with it (ll. 26-28); otherwise
`t.store` is inserted into the write tree and committed. -/
def Commit (t : openTree) (q : Quasar) : Quasar :=
  { q with
    committed := q.committed ++ [(t.id, t.store)],
    panicked :=
      match NewWriteQTree q t.id with
      | some err => some err
      | none => q.panicked }

/-- The constructor `NewQuasar` (ll. 80-91) once `bstore.NewBlockStore` has returned the
block store `bs`: no buffer exists. -/
def NewQuasar (cfg : QuasarConfig)
    (bs : List (UUID × List Record) → UUID → Option Error) : Quasar :=
  { cfg := cfg, bs := bs, openTrees := fun _ => none, heap := [], committed := [],
    panicked := none }

/-- Store through the pointer `p`. -/
def setOT (q : Quasar) (p : Nat) (t : openTree) : Quasar :=
  { q with heap := q.heap.set p t }

/-- The statement `delete(q.openTrees, mk)`. -/
def deleteOT (q : Quasar) (mk : Nat) : Quasar :=
  { q with openTrees := Function.update q.openTrees mk none }

/-- Lines 97-120 of `InsertValues`: the lookup, and on a miss the allocation of a new
buffer, its registration in the map and the start of its timer goroutine (the goroutine
is the step `timerFire` at the returned pointer). -/
def lookupOrCreate (q : Quasar) (id : UUID) : Quasar × Nat :=
  match q.openTrees (UUIDToMapKey id) with
  | some p => (q, p)
  | none =>
    ({ q with heap := q.heap ++ [newOpenTree id],
              openTrees := Function.update q.openTrees (UUIDToMapKey id) (some q.heap.length) },
     q.heap.length)

/-- Lines 128-140 of `InsertValues`: append, then the early-trip test and commit. -/
def appendAndTrip (q : Quasar) (id : UUID) (p : Nat) (ot : openTree) (r : List Record) :
    Quasar :=
  let ot1 : openTree := { ot with store := ot.store ++ r }
  if toInt q.cfg.TransactionCoalesceEarlyTrip ≤ (ot1.store.length : Int) then
    let ot2 : openTree := { ot1 with expired := true }
    Commit ot2 (deleteOT (setOT q p ot2) (UUIDToMapKey id))
  else
    setOT q p ot1

/-- The body of `InsertValues` from the label `albert` (ll. 96-140); each `goto albert`
consumes one unit of fuel.  The result is `none` when the fuel is exhausted, when the
pointer found in the map is dangling, or when the call has to wait on `exmtx` because
the commit of the expired buffer is still in flight. -/
def albert (id : UUID) (r : List Record) : Nat → Quasar → Option Quasar
  | 0, _ => none
  | fuel + 1, q =>
    match lookupOrCreate q id with
    | (q1, p) =>
      match q1.heap[p]? with
      | none => none
      | some ot =>
        if ot.expired then
          if ot.exmtx then none
          else albert id r fuel (deleteOT q1 (UUIDToMapKey id))
        else
          some (appendAndTrip q1 id p ot r)

/-- The method `Quasar.InsertValues` (ll. 93-141).  Two passes through the label suffice:
after `delete` the lookup misses and the fresh buffer is not expired
(`albert_fuel_irrelevant`). -/
def InsertValues (q : Quasar) (id : UUID) (r : List Record) : Option Quasar :=
  albert id r 2 q

/-- The method `Quasar.Flush` (ll. 142-159): the new state and how the call ends.  On an
open buffer the call returns `nil` after `Commit`, unless `Commit` panics.  The result
is `none` only when the pointer found in the map is dangling. -/
def Flush (q : Quasar) (id : UUID) : Option (Quasar × Ending) :=
  match q.openTrees (UUIDToMapKey id) with
  | none => some (q, Ending.returns (some Error.ErrNoSuchStream))
  | some p =>
    match q.heap[p]? with
    | none => none
    | some ot =>
      if ot.expired then some (q, Ending.returns none)
      else
        let ot1 : openTree := { ot with expired := true }
        some (Commit ot1 (deleteOT (setOT q p ot1) (UUIDToMapKey id)),
          match NewWriteQTree q ot.id with
          | some err => Ending.panics err
          | none => Ending.returns none)

/-- The timer goroutine of the buffer at `p`, first half (ll. 103-110 and 115-118): under
`tlock`, an open buffer is marked expired and `exmtx` is taken; an expired one is left
alone. -/
def timerExpire (q : Quasar) (p : Nat) : Quasar :=
  match q.heap[p]? with
  | none => q
  | some ot =>
    if ot.expired then q
    else setOT q p { ot with expired := true, exmtx := true }

/-- The timer goroutine of the buffer at `p`, second half (ll. 113-114), run by the
goroutine that holds `exmtx`: the commit, then the release of `exmtx`, which is not
reached when the commit panics. -/
def timerCommit (q : Quasar) (p : Nat) : Quasar :=
  match q.heap[p]? with
  | none => q
  | some ot =>
    if ot.exmtx then
      match NewWriteQTree q ot.id with
      | some _ => Commit ot q
      | none => setOT (Commit ot q) p { ot with exmtx := false }
    else q

/-- The timer goroutine of the buffer at `p` run without interleaving (ll. 103-118). -/
def timerFire (q : Quasar) (p : Nat) : Quasar :=
  match q.heap[p]? with
  | none => q
  | some ot =>
    if ot.expired then q
    else timerCommit (timerExpire q p) p

/-- One atomic step of the coalescer. -/
inductive Op where
  | insert (id : UUID) (r : List Record)
  | flush (id : UUID)
  | timer (p : Nat)
deriving DecidableEq, Repr

/-- Effect of one atomic call on the state. -/
def applyOp (q : Quasar) : Op → Option Quasar
  | Op.insert id r => InsertValues q id r
  | Op.flush id => (Flush q id).map Prod.fst
  | Op.timer p => some (timerFire q p)

/-- One atomic step of the process: a process that has panicked takes no further
step. -/
def step (q : Quasar) (op : Op) : Option Quasar :=
  if q.panicked.isSome then none else applyOp q op

/-- A finite sequence of atomic steps. -/
def run : List Op → Quasar → Option Quasar
  | [], q => some q
  | op :: ops, q => (step q op).bind (run ops)

/-- Concatenation, in call order, of the record slices passed to `InsertValues` for the
stream `id`. -/
def inserted (id : UUID) : List Op → List Record
  | [] => []
  | Op.insert i r :: ops => if i = id then r ++ inserted id ops else inserted id ops
  | _ :: ops => inserted id ops

/-- Concatenation, in commit order, of the record slices handed to `openTree.Commit` for
the stream `id`. -/
def committedFor (q : Quasar) (id : UUID) : List Record :=
  ((q.committed.filter (fun c => decide (c.1 = id))).map Prod.snd).flatten

/-- The store of the non-expired buffer of stream `id` in `openTrees`, empty when there
is none. -/
def openStore (q : Quasar) (id : UUID) : List Record :=
  match q.openTrees (UUIDToMapKey id) with
  | none => []
  | some p =>
    match q.heap[p]? with
    | none => []
    | some ot => if ot.expired then [] else ot.store

/-- What is known of the records of stream `id`: those committed followed by those in
its open buffer. -/
def total (q : Quasar) (id : UUID) : List Record :=
  committedFor q id ++ openStore q id

/-- The invariant of the states reached by atomic steps: every map entry points to a
live buffer of that stream, no `exmtx` is held between steps, and every buffer that is
not expired is the one registered for its stream. -/
structure Coherent (q : Quasar) : Prop where
  live : ∀ (mk p : Nat), q.openTrees mk = some p →
    ∃ ot : openTree, q.heap[p]? = some ot ∧ UUIDToMapKey ot.id = mk
  free : ∀ (p : Nat) (ot : openTree), q.heap[p]? = some ot → ot.exmtx = false
  owned : ∀ (p : Nat) (ot : openTree), q.heap[p]? = some ot → ot.expired = false →
    q.openTrees (UUIDToMapKey ot.id) = some p

/-! ## The query API and the GC entry point -/

/-- The operations of the block store (`bstoreGen1`) and of the tree package (`qtree`)
that `quasar.go` calls, over an abstract block-store state `BS` and an abstract tree
handle `Tree`; neither package is among the embedded sources. -/
structure BlockStore (BS Tree : Type) where
  LatestGeneration : Nat
  LoadSuperblock : BS → UUID → Nat → Option Superblock
  NewReadQTree : BS → UUID → Nat → Except Error Tree
  Generation : Tree → Nat
  ReadStandardValuesBlock : BS → Tree → Int → Int → List Record × Option Error
  QueryStatisticalValuesBlock : BS → Tree → Int → Int → Nat → List StatRecord × Option Error
  GetAllReferencedVAddrs : BS → Tree → List Nat
  UnlinkGenerations : BS → UUID → Nat → Nat → BS
  UnlinkBlocks : BS → UUID → Nat → Nat → (Nat → Option Bool) → BS × Nat

/-- The method `Quasar.QueryValues` (ll. 206-213). -/
def QueryValues {BS Tree : Type} (I : BlockStore BS Tree) (bs : BS) (id : UUID)
    (start stop : Int) (gen : Nat) : List Record × Nat × Option Error :=
  match I.NewReadQTree bs id gen with
  | Except.error err => ([], 0, some err)
  | Except.ok tr =>
    match I.ReadStandardValuesBlock bs tr start stop with
    | (rv, err) => (rv, I.Generation tr, err)

/-- The method `Quasar.QueryStatisticalValues` (ll. 215-226). -/
def QueryStatisticalValues {BS Tree : Type} (I : BlockStore BS Tree) (bs : BS) (id : UUID)
    (start stop : Int) (gen : Nat) (pointwidth : Nat) : List StatRecord × Nat × Option Error :=
  match I.NewReadQTree bs id gen with
  | Except.error err => ([], 0, some err)
  | Except.ok tr =>
    match I.QueryStatisticalValuesBlock bs tr start stop pointwidth with
    | (_, some err) => ([], 0, some err)
    | (rv, none) => (rv, I.Generation tr, none)

/-- The method `Quasar.QueryGeneration` (ll. 228-234). -/
def QueryGeneration {BS Tree : Type} (I : BlockStore BS Tree) (bs : BS) (id : UUID) :
    Nat × Option Error :=
  match I.LoadSuperblock bs id I.LatestGeneration with
  | none => (0, some Error.ErrNoSuchStream)
  | some sb => (sb.Gen, none)

/-- The ways in which `UnlinkBlocks` aborts: the two calls of `log.Panic` with a message
(ll. 249 and 253), the one with the error of `NewReadQTree` (l. 259), and the
dereference of a nil superblock (l. 256). -/
inductive Panic where
  | noSuchEndGeneration
  | onlySupportStartZero
  | treeError (err : Error)
  | nilDereference
deriving DecidableEq, Repr

/-- The loop of ll. 266-270: the map `end_refset` built from the referenced addresses. -/
def endRefset (erefd : List Nat) : Nat → Option Bool :=
  erefd.foldl (fun m v => Function.update m v (some true)) (fun _ => none)

/-- The method `Quasar.UnlinkBlocks` (ll. 245-281): the block-store state in which the
call ends, and either the panic that aborted it or the returned error. -/
def UnlinkBlocks {BS Tree : Type} (I : BlockStore BS Tree) (bs : BS) (id : UUID)
    (start stop : Nat) : BS × Except Panic (Option Error) :=
  match I.LoadSuperblock bs id stop with
  | none => (bs, Except.error Panic.noSuchEndGeneration)
  | some _ =>
    if start ≠ 0 then (bs, Except.error Panic.onlySupportStartZero)
    else
      match I.LoadSuperblock bs id stop with
      | none => (bs, Except.error Panic.nilDereference)
      | some e_sb =>
        match I.NewReadQTree bs id stop with
        | Except.error err => (bs, Except.error (Panic.treeError err))
        | Except.ok e_tree =>
          let bs1 := I.UnlinkGenerations bs id start stop
          let erefd := I.GetAllReferencedVAddrs bs1 e_tree
          let end_refset := endRefset erefd
          ((I.UnlinkBlocks bs1 id 0 e_sb.MIBID end_refset).1, Except.ok none)

/-- The calls that change a block store. -/
inductive BSCall where
  | unlinkGenerations (id : UUID) (start stop : Nat)
  | unlinkBlocks (id : UUID) (low high : Nat) (kept : List Nat)
deriving DecidableEq, Repr

/-- A block store for exercising the functions above: its state is the log of the
mutating calls it has received (for `unlinkBlocks` with the addresses below `high` that
the keep set holds).  Streams 7 and 9 have generation 3 as their latest one, with
MIBID 10; the tree of stream 7 references the addresses 1, 2 and 5, the tree of stream 9
cannot be opened; no other superblock exists. -/
def logStore : BlockStore (List BSCall) (List Nat) where
  LatestGeneration := 0
  LoadSuperblock := fun _ id gen =>
    if (id = 7 ∨ id = 9) ∧ (gen = 3 ∨ gen = 0) then some { Gen := 3, MIBID := 10 } else none
  NewReadQTree := fun _ id gen =>
    if id = 7 ∧ (gen = 3 ∨ gen = 0) then Except.ok [1, 2, 5]
    else if id = 9 ∧ (gen = 3 ∨ gen = 0) then Except.error (Error.other 1)
    else Except.error Error.ErrNoSuchStream
  Generation := fun _ => 3
  ReadStandardValuesBlock := fun _ _ _ _ => ([], none)
  QueryStatisticalValuesBlock := fun _ _ _ _ _ =>
    ([{ Time := 0, Count := 4, Min := 1, Mean := 2, Max := 4 }], none)
  GetAllReferencedVAddrs := fun _ tr => tr
  UnlinkGenerations := fun bs id start stop => bs ++ [BSCall.unlinkGenerations id start stop]
  UnlinkBlocks := fun bs id low high keep =>
    (bs ++ [BSCall.unlinkBlocks id low high
      ((List.range high).filter (fun a => decide (keep a = some true)))], 0)

/-! ## Request dispatch -/

/-- Status codes that the handlers set. -/
inductive StatusCode where
  | STATUSCODE_OK
  | STATUSCODE_INTERNALERROR
  | STATUSCODE_NOSUCHPOINT
deriving DecidableEq, Repr

/-- The union member of a response. -/
inductive Payload where
  | void
  | records (version : Nat) (values : List Record)
  | statisticalRecords (version : Nat) (values : List StatRecord)
  | versionList (uuids : List (Option UUID)) (versions : List Nat)
deriving DecidableEq, Repr

/-- Modelled from the spec: the generated declarations of the wire format are not among
the embedded sources (the spec leaves the encoding to the collaborator); a response is
the record of what the handlers set on it: echo tag, status code and union member. -/
structure Response where
  echoTag : Nat
  statusCode : StatusCode
  payload : Payload
deriving DecidableEq, Repr

/-- The three requests whose handlers are embedded. -/
inductive RequestBody where
  | QueryStandardValues (uuid : UUID) (startTime endTime : Int) (version : Nat)
  | QueryStatisticalValues (uuid : UUID) (startTime endTime : Int) (pointWidth : Nat)
      (version : Nat)
  | QueryVersion (uuids : List UUID)
deriving DecidableEq, Repr

/-- A decoded request. -/
structure Request where
  echoTag : Nat
  body : RequestBody
deriving DecidableEq, Repr

/-- The setter `SetStatusCode`. -/
def SetStatusCode (resp : Response) (c : StatusCode) : Response :=
  { resp with statusCode := c }

/-- The setter `SetEchoTag`. -/
def SetEchoTag (resp : Response) (t : Nat) : Response :=
  { resp with echoTag := t }

/-- The setters `SetRecords`, `SetStatisticalRecords` and `SetVersionList`. -/
def SetPayload (resp : Response) (pl : Payload) : Response :=
  { resp with payload := pl }

/-- Case `REQUEST_QUERYSTANDARDVALUES` (ll. 75-106).  The record list is created with
`len(rv)` entries, so the length test of l. 91 cannot fail. -/
def handleQueryStandardValues {BS Tree : Type} (I : BlockStore BS Tree) (bs : BS)
    (uuid : UUID) (st et : Int) (ver : Nat) (resp : Response) : Response :=
  let ver1 := if ver = 0 then I.LatestGeneration else ver
  match QueryValues I bs uuid st et ver1 with
  | (rv, gen, none) =>
    SetPayload (SetStatusCode resp StatusCode.STATUSCODE_OK) (Payload.records gen rv)
  | (_, _, some _) => SetStatusCode resp StatusCode.STATUSCODE_INTERNALERROR

/-- Case `REQUEST_QUERYSTATISTICALVALUES` (ll. 107-136): the `switch` on the error
(ll. 117-135) followed by the statement of l. 136. -/
def handleQueryStatisticalValues {BS Tree : Type} (I : BlockStore BS Tree) (bs : BS)
    (uuid : UUID) (st et : Int) (pw : Nat) (ver : Nat) (resp : Response) : Response :=
  let ver1 := if ver = 0 then I.LatestGeneration else ver
  let resp1 :=
    match QueryStatisticalValues I bs uuid st et ver1 pw with
    | (rv, gen, none) =>
      SetPayload (SetStatusCode resp StatusCode.STATUSCODE_OK)
        (Payload.statisticalRecords gen rv)
    | (_, _, some _) => SetStatusCode resp StatusCode.STATUSCODE_INTERNALERROR
  SetStatusCode resp1 StatusCode.STATUSCODE_INTERNALERROR

/-- The loop of ll. 144-156 from index `i` on: the response, `vlist` and `ulist`. -/
def versionLoop {BS Tree : Type} (I : BlockStore BS Tree) (bs : BS) :
    List UUID → Nat → Response × List Nat × List (Option UUID) →
      Response × List Nat × List (Option UUID)
  | [], _, st => st
  | v :: rest, i, (resp, vlist, ulist) =>
    match QueryGeneration I bs v with
    | (_, some _) => (SetStatusCode resp StatusCode.STATUSCODE_INTERNALERROR, vlist, ulist)
    | (ver, none) => versionLoop I bs rest (i + 1) (resp, vlist.set i ver, ulist.set i (some v))

/-- Case `REQUEST_QUERYVERSION` (ll. 137-160). -/
def handleQueryVersion {BS Tree : Type} (I : BlockStore BS Tree) (bs : BS)
    (ull : List UUID) (resp : Response) : Response :=
  match versionLoop I bs ull 0
      (resp, List.replicate ull.length 0, List.replicate ull.length none) with
  | (resp1, vlist, ulist) =>
    SetPayload (SetStatusCode resp1 StatusCode.STATUSCODE_OK) (Payload.versionList ulist vlist)

/-- The body of the goroutine that `dispatchCommands` starts for one request
(ll. 68-249), for the three embedded cases: the response that is written, `resp0` being
the response as `NewRootResponse` creates it. -/
def dispatchCommands {BS Tree : Type} (I : BlockStore BS Tree) (bs : BS) (req : Request)
    (resp0 : Response) : Response :=
  let resp := SetEchoTag resp0 req.echoTag
  match req.body with
  | RequestBody.QueryStandardValues uuid st et ver =>
    handleQueryStandardValues I bs uuid st et ver resp
  | RequestBody.QueryStatisticalValues uuid st et pw ver =>
    handleQueryStatisticalValues I bs uuid st et pw ver resp
  | RequestBody.QueryVersion uuids => handleQueryVersion I bs uuids resp

/-! ## Properties of the coalescer -/

@[simp] theorem deleteOT_heap (q : Quasar) (mk : Nat) : (deleteOT q mk).heap = q.heap := rfl

@[simp] theorem deleteOT_committed (q : Quasar) (mk : Nat) :
    (deleteOT q mk).committed = q.committed := rfl

@[simp] theorem deleteOT_cfg (q : Quasar) (mk : Nat) : (deleteOT q mk).cfg = q.cfg := rfl

@[simp] theorem deleteOT_openTrees (q : Quasar) (mk : Nat) :
    (deleteOT q mk).openTrees = Function.update q.openTrees mk none := rfl

@[simp] theorem setOT_heap (q : Quasar) (p : Nat) (t : openTree) :
    (setOT q p t).heap = q.heap.set p t := rfl

@[simp] theorem setOT_committed (q : Quasar) (p : Nat) (t : openTree) :
    (setOT q p t).committed = q.committed := rfl

@[simp] theorem setOT_cfg (q : Quasar) (p : Nat) (t : openTree) : (setOT q p t).cfg = q.cfg := rfl

@[simp] theorem setOT_openTrees (q : Quasar) (p : Nat) (t : openTree) :
    (setOT q p t).openTrees = q.openTrees := rfl

@[simp] theorem Commit_heap (t : openTree) (q : Quasar) : (Commit t q).heap = q.heap := rfl

@[simp] theorem Commit_cfg (t : openTree) (q : Quasar) : (Commit t q).cfg = q.cfg := rfl

@[simp] theorem Commit_openTrees (t : openTree) (q : Quasar) :
    (Commit t q).openTrees = q.openTrees := rfl

@[simp] theorem Commit_committed (t : openTree) (q : Quasar) :
    (Commit t q).committed = q.committed ++ [(t.id, t.store)] := rfl

@[simp] theorem deleteOT_bs (q : Quasar) (mk : Nat) : (deleteOT q mk).bs = q.bs := rfl

@[simp] theorem deleteOT_panicked (q : Quasar) (mk : Nat) :
    (deleteOT q mk).panicked = q.panicked := rfl

@[simp] theorem setOT_bs (q : Quasar) (p : Nat) (t : openTree) : (setOT q p t).bs = q.bs := rfl

@[simp] theorem setOT_panicked (q : Quasar) (p : Nat) (t : openTree) :
    (setOT q p t).panicked = q.panicked := rfl

@[simp] theorem Commit_bs (t : openTree) (q : Quasar) : (Commit t q).bs = q.bs := rfl

theorem Commit_panicked (t : openTree) (q : Quasar) :
    (Commit t q).panicked =
      match NewWriteQTree q t.id with
      | some err => some err
      | none => q.panicked := rfl

@[simp] theorem UUIDToMapKey_eq (id : UUID) : UUIDToMapKey id = id := rfl

theorem committedFor_Commit (t : openTree) (q : Quasar) (id : UUID) :
    committedFor (Commit t q) id
      = committedFor q id ++ (if t.id = id then t.store else []) := by
  unfold committedFor Commit
  by_cases h : t.id = id <;> simp [List.filter_append, List.filter_cons, h]

theorem Coherent_NewQuasar (cfg : QuasarConfig)
    (bs : List (UUID × List Record) → UUID → Option Error) : Coherent (NewQuasar cfg bs) := by
  constructor <;> simp [NewQuasar]

theorem total_NewQuasar (cfg : QuasarConfig)
    (bs : List (UUID × List Record) → UUID → Option Error) (id : UUID) :
    total (NewQuasar cfg bs) id = [] := by
  simp [total, committedFor, openStore, NewQuasar]

/-- Deleting the entry of an expired buffer keeps the invariant and the records. -/
theorem Coherent_deleteOT_expired {q : Quasar} (hq : Coherent q) {id p : Nat} {ot : openTree}
    (hm : q.openTrees (UUIDToMapKey id) = some p) (hp : q.heap[p]? = some ot)
    (he : ot.expired = true) :
    Coherent (deleteOT q (UUIDToMapKey id)) ∧
      ∀ i, total (deleteOT q (UUIDToMapKey id)) i = total q i := by
  simp only [UUIDToMapKey] at *
  refine ⟨⟨?_, ?_, ?_⟩, ?_⟩
  · intro mk p1 h
    simp only [deleteOT, Function.update_apply] at h
    split at h
    · cases h
    · exact hq.live mk p1 h
  · intro p1 ot1 h
    exact hq.free p1 ot1 h
  · intro p1 ot1 h hne
    have h1 := hq.owned p1 ot1 h hne
    simp only [UUIDToMapKey] at h1
    simp only [deleteOT, Function.update_apply]
    split
    · next heq =>
      simp only [UUIDToMapKey] at heq
      rw [heq, hm] at h1
      cases h1
      rw [deleteOT_heap, hp] at h
      cases h
      rw [he] at hne
      cases hne
    · exact h1
  · intro i
    simp only [total, committedFor, openStore, deleteOT, UUIDToMapKey, Function.update_apply]
    by_cases hi : i = id
    · subst hi
      simp [hm, hp, he]
    · simp [hi]

theorem lookupOrCreate_none {q : Quasar} {id : UUID}
    (hm : q.openTrees (UUIDToMapKey id) = none) :
    lookupOrCreate q id =
      ({ q with heap := q.heap ++ [newOpenTree id],
                openTrees := Function.update q.openTrees (UUIDToMapKey id)
                  (some q.heap.length) }, q.heap.length) := by
  unfold lookupOrCreate
  rw [hm]

theorem lookupOrCreate_some {q : Quasar} {id : UUID} {p : Nat}
    (hm : q.openTrees (UUIDToMapKey id) = some p) : lookupOrCreate q id = (q, p) := by
  unfold lookupOrCreate
  rw [hm]

theorem heap_lt {q : Quasar} {p : Nat} {ot : openTree} (h : q.heap[p]? = some ot) :
    p < q.heap.length := by
  obtain ⟨hlt, _⟩ := List.getElem?_eq_some.mp h
  exact hlt

/-- Creating the buffer of an absent stream keeps the invariant and the records. -/
theorem Coherent_create {q : Quasar} (hq : Coherent q) {id : UUID}
    (hm : q.openTrees (UUIDToMapKey id) = none) :
    Coherent (lookupOrCreate q id).1 ∧
      (∀ i, total (lookupOrCreate q id).1 i = total q i) := by
  rw [lookupOrCreate_none hm]
  simp only [UUIDToMapKey] at *
  refine ⟨⟨?_, ?_, ?_⟩, ?_⟩
  · intro mk p1 h
    simp only [Function.update_apply] at h
    split at h
    · next heq =>
      cases h
      exact ⟨newOpenTree id, by simp, by simp [newOpenTree, heq]⟩
    · obtain ⟨ot, h1, h2⟩ := hq.live mk p1 h
      exact ⟨ot, by simp [List.getElem?_append_left (heap_lt h1), h1], h2⟩
  · intro p1 ot1 h
    simp only [List.getElem?_append] at h
    split at h
    · exact hq.free p1 ot1 h
    · next hge =>
      have : p1 - q.heap.length = 0 := by
        by_contra hne
        have : ([newOpenTree id])[p1 - q.heap.length]? = none := by
          apply List.getElem?_eq_none
          simp
          omega
        rw [this] at h
        cases h
      rw [this] at h
      simp at h
      subst h
      rfl
  · intro p1 ot1 h hne
    simp only [List.getElem?_append] at h
    simp only [UUIDToMapKey, Function.update_apply]
    split at h
    · have h1 := hq.owned p1 ot1 h hne
      simp only [UUIDToMapKey] at h1
      split
      · next heq =>
        rw [heq, hm] at h1
        cases h1
      · exact h1
    · next hge =>
      have h0 : p1 - q.heap.length = 0 := by
        by_contra hne
        have : ([newOpenTree id])[p1 - q.heap.length]? = none := by
          apply List.getElem?_eq_none
          simp
          omega
        rw [this] at h
        cases h
      rw [h0] at h
      simp at h
      subst h
      have : p1 = q.heap.length := by omega
      simp [newOpenTree, this]
  · intro i
    simp only [total, committedFor, openStore, UUIDToMapKey, Function.update_apply]
    by_cases hi : i = id
    · subst hi
      simp [hm, newOpenTree]
    · simp only [hi, if_false]
      cases hmi : q.openTrees i with
      | none => rfl
      | some p1 =>
        obtain ⟨ot, h1, _⟩ := hq.live i p1 hmi
        simp [List.getElem?_append_left (heap_lt h1), h1]

theorem set_lookup {l : List openTree} {p p1 : Nat} {t a : openTree}
    (h : (l.set p t)[p1]? = some a) : (p = p1 ∧ a = t) ∨ (p ≠ p1 ∧ l[p1]? = some a) := by
  rw [List.getElem?_set] at h
  by_cases hpp : p = p1
  · rw [if_pos hpp] at h
    by_cases hlt : p < l.length
    · rw [if_pos hlt] at h
      cases h
      exact Or.inl ⟨hpp, rfl⟩
    · rw [if_neg hlt] at h
      cases h
  · rw [if_neg hpp] at h
    exact Or.inr ⟨hpp, h⟩

theorem committedFor_snoc {q q1 : Quasar} {t : openTree}
    (hc : q1.committed = q.committed ++ [(t.id, t.store)]) (i : UUID) :
    committedFor q1 i = committedFor q i ++ (if t.id = i then t.store else []) := by
  unfold committedFor
  rw [hc]
  by_cases h : t.id = i <;> simp [List.filter_append, List.filter_cons, h]

theorem committedFor_same {q q1 : Quasar} (hc : q1.committed = q.committed) (i : UUID) :
    committedFor q1 i = committedFor q i := by
  unfold committedFor
  rw [hc]

theorem live_id {q : Quasar} (hq : Coherent q) {id p : Nat} {ot : openTree}
    (hm : q.openTrees id = some p) (hp : q.heap[p]? = some ot) : ot.id = id := by
  obtain ⟨ot1, h1, h2⟩ := hq.live id p hm
  rw [hp] at h1
  cases h1
  exact h2

theorem openStore_other {q q1 : Quasar} (hq : Coherent q) {id p : Nat} {t : openTree}
    (hm : q.openTrees id = some p)
    (hh : q1.heap = q.heap.set p t) {i : UUID} (hi : i ≠ id)
    (ho : q1.openTrees i = q.openTrees i) : openStore q1 i = openStore q i := by
  simp only [openStore, UUIDToMapKey, ho, hh]
  cases hmi : q.openTrees i with
  | none => rfl
  | some p1 =>
    have hne : p ≠ p1 := by
      intro heq
      subst heq
      obtain ⟨ot1, h1, h2⟩ := hq.live i p hmi
      exact hi (h2.symm.trans (live_id hq hm h1))
    simp only [List.getElem?_set_ne hne]

/-- Marking the registered buffer expired, removing its entry and committing it. -/
theorem Coherent_closeOut {q q1 : Quasar} (hq : Coherent q) {id p : Nat} {ot t : openTree}
    (hm : q.openTrees id = some p) (hp : q.heap[p]? = some ot)
    (hid : t.id = ot.id) (hex : t.expired = true) (hmx : t.exmtx = false)
    (ho : q1.openTrees = Function.update q.openTrees id none)
    (hh : q1.heap = q.heap.set p t)
    (hc : q1.committed = q.committed ++ [(t.id, t.store)]) :
    Coherent q1 ∧
      ∀ i, total q1 i = committedFor q i ++ (if i = id then t.store else openStore q i) := by
  have hoid : ot.id = id := live_id hq hm hp
  refine ⟨⟨?_, ?_, ?_⟩, ?_⟩
  · intro mk p1 h
    rw [ho, Function.update_apply] at h
    split at h
    · cases h
    · next hne =>
      obtain ⟨ot1, h1, h2⟩ := hq.live mk p1 h
      have hpp : p ≠ p1 := by
        intro heq
        subst heq
        exact hne ((live_id hq h h1).symm.trans (live_id hq hm h1))
      exact ⟨ot1, by rw [hh, List.getElem?_set_ne hpp]; exact h1, h2⟩
  · intro p1 ot1 h
    rw [hh] at h
    rcases set_lookup h with ⟨_, h1⟩ | ⟨_, h1⟩
    · rw [h1]
      exact hmx
    · exact hq.free p1 ot1 h1
  · intro p1 ot1 h hne
    rw [hh] at h
    rcases set_lookup h with ⟨_, h1⟩ | ⟨hpp, h⟩
    · rw [h1, hex] at hne
      cases hne
    · have h1 := hq.owned p1 ot1 h hne
      simp only [UUIDToMapKey] at h1 ⊢
      rw [ho, Function.update_apply]
      split
      · next heq =>
        rw [heq, hm] at h1
        cases h1
        exact absurd rfl hpp
      · exact h1
  · intro i
    unfold total
    rw [committedFor_snoc hc i, hid, hoid]
    by_cases hi : i = id
    · subst hi
      simp [openStore, ho]
    · have hi2 : ¬ id = i := fun h => hi h.symm
      rw [openStore_other hq hm hh hi (by rw [ho, Function.update_apply, if_neg hi])]
      simp [hi, hi2]

/-- Replacing the registered open buffer by an open buffer with another store. -/
theorem Coherent_append {q q1 : Quasar} (hq : Coherent q) {id p : Nat} {ot t : openTree}
    (hm : q.openTrees id = some p) (hp : q.heap[p]? = some ot)
    (hid : t.id = ot.id) (hex : t.expired = false) (hmx : t.exmtx = false)
    (ho : q1.openTrees = q.openTrees)
    (hh : q1.heap = q.heap.set p t)
    (hc : q1.committed = q.committed) :
    Coherent q1 ∧
      ∀ i, total q1 i = committedFor q i ++ (if i = id then t.store else openStore q i) := by
  have hoid : ot.id = id := live_id hq hm hp
  have hlt : p < q.heap.length := heap_lt hp
  refine ⟨⟨?_, ?_, ?_⟩, ?_⟩
  · intro mk p1 h
    rw [ho] at h
    obtain ⟨ot1, h1, h2⟩ := hq.live mk p1 h
    by_cases hpp : p = p1
    · subst hpp
      refine ⟨t, by rw [hh, List.getElem?_set_self hlt], ?_⟩
      rw [hp] at h1
      cases h1
      simp only [UUIDToMapKey] at h2 ⊢
      rw [hid, h2]
    · exact ⟨ot1, by rw [hh, List.getElem?_set_ne hpp]; exact h1, h2⟩
  · intro p1 ot1 h
    rw [hh] at h
    rcases set_lookup h with ⟨_, h1⟩ | ⟨_, h1⟩
    · rw [h1]
      exact hmx
    · exact hq.free p1 ot1 h1
  · intro p1 ot1 h hne
    rw [hh] at h
    rw [ho]
    rcases set_lookup h with ⟨hpp, h1⟩ | ⟨_, h1⟩
    · subst hpp
      simp only [UUIDToMapKey]
      rw [h1, hid, hoid, hm]
    · exact hq.owned p1 ot1 h1 hne
  · intro i
    unfold total
    rw [committedFor_same hc i]
    by_cases hi : i = id
    · subst hi
      simp [openStore, ho, hm, hh, List.getElem?_set_self hlt, hex]
    · rw [openStore_other hq hm hh hi (by rw [ho])]
      simp [hi]

/-- Marking a buffer expired in place and committing it, the map being left alone; the
invariant is kept when `exmtx` is free afterwards. -/
theorem Coherent_timer {q q1 : Quasar} (hq : Coherent q) {p : Nat} {ot t : openTree}
    (hp : q.heap[p]? = some ot) (he : ot.expired = false)
    (hid : t.id = ot.id) (hex : t.expired = true)
    (hst : t.store = ot.store)
    (ho : q1.openTrees = q.openTrees)
    (hh : q1.heap = q.heap.set p t)
    (hc : q1.committed = q.committed ++ [(t.id, t.store)]) :
    (t.exmtx = false → Coherent q1) ∧ ∀ i, total q1 i = total q i := by
  have hm : q.openTrees ot.id = some p := hq.owned p ot hp he
  have hlt : p < q.heap.length := heap_lt hp
  refine ⟨fun hmx => ⟨?_, ?_, ?_⟩, ?_⟩
  · intro mk p1 h
    rw [ho] at h
    obtain ⟨ot1, h1, h2⟩ := hq.live mk p1 h
    by_cases hpp : p = p1
    · subst hpp
      refine ⟨t, by rw [hh, List.getElem?_set_self hlt], ?_⟩
      rw [hp] at h1
      cases h1
      simp only [UUIDToMapKey] at h2 ⊢
      rw [hid, h2]
    · exact ⟨ot1, by rw [hh, List.getElem?_set_ne hpp]; exact h1, h2⟩
  · intro p1 ot1 h
    rw [hh] at h
    rcases set_lookup h with ⟨_, h1⟩ | ⟨_, h1⟩
    · rw [h1]
      exact hmx
    · exact hq.free p1 ot1 h1
  · intro p1 ot1 h hne
    rw [hh] at h
    rw [ho]
    rcases set_lookup h with ⟨_, h1⟩ | ⟨_, h1⟩
    · rw [h1, hex] at hne
      cases hne
    · exact hq.owned p1 ot1 h1 hne
  · intro i
    unfold total
    rw [committedFor_snoc hc i, hid, hst]
    by_cases hi : i = ot.id
    · subst hi
      simp [openStore, ho, hm, hh, List.getElem?_set_self hlt, hex, hp, he]
    · have hi2 : ¬ ot.id = i := fun h => hi h.symm
      rw [openStore_other hq hm hh hi (by rw [ho])]
      simp [hi2]

theorem albert_open {q : Quasar} {id : UUID} {p : Nat} {ot : openTree} (r : List Record)
    (fuel : Nat) (hm : q.openTrees (UUIDToMapKey id) = some p) (hp : q.heap[p]? = some ot)
    (he : ot.expired = false) :
    albert id r (fuel + 1) q = some (appendAndTrip q id p ot r) := by
  simp only [albert, lookupOrCreate_some hm, hp, he]
  rfl

theorem albert_absent {q : Quasar} {id : UUID} (r : List Record) (fuel : Nat)
    (hm : q.openTrees (UUIDToMapKey id) = none) :
    albert id r (fuel + 1) q
      = some (appendAndTrip (lookupOrCreate q id).1 id q.heap.length (newOpenTree id) r) := by
  simp only [albert, lookupOrCreate_none hm, List.getElem?_concat_length]
  rfl

theorem albert_expired {q : Quasar} {id : UUID} {p : Nat} {ot : openTree} (r : List Record)
    (fuel : Nat) (hm : q.openTrees (UUIDToMapKey id) = some p) (hp : q.heap[p]? = some ot)
    (he : ot.expired = true) (hx : ot.exmtx = false) :
    albert id r (fuel + 1) q = albert id r fuel (deleteOT q (UUIDToMapKey id)) := by
  simp only [albert, lookupOrCreate_some hm, hp, he, hx]
  rfl

theorem openStore_open {q : Quasar} {id p : Nat} {ot : openTree}
    (hm : q.openTrees id = some p) (hp : q.heap[p]? = some ot) (he : ot.expired = false) :
    openStore q id = ot.store := by
  simp [openStore, hm, hp, he]

/-- Lines 128-140 on the registered open buffer: the invariant is kept and the records of
the stream grow by `r`. -/
theorem Coherent_appendAndTrip {q : Quasar} (hq : Coherent q) {id p : Nat} {ot : openTree}
    (r : List Record) (hm : q.openTrees id = some p) (hp : q.heap[p]? = some ot)
    (he : ot.expired = false) :
    Coherent (appendAndTrip q id p ot r) ∧
      ∀ i, total (appendAndTrip q id p ot r) i = total q i ++ (if i = id then r else []) := by
  have hx : ot.exmtx = false := hq.free p ot hp
  have key : ∀ q1 : Quasar, ∀ t : openTree, t.store = ot.store ++ r →
      (Coherent q1 ∧ ∀ i, total q1 i
        = committedFor q i ++ (if i = id then t.store else openStore q i)) →
      (Coherent q1 ∧ ∀ i, total q1 i = total q i ++ (if i = id then r else [])) := by
    intro q1 t ht ⟨h1, h2⟩
    refine ⟨h1, fun i => ?_⟩
    rw [h2 i]
    unfold total
    by_cases hi : i = id
    · subst hi
      simp [ht, openStore_open hm hp he]
    · simp [hi]
  unfold appendAndTrip
  simp only
  split
  · exact key _ { expired := true, store := ot.store ++ r, id := ot.id, exmtx := ot.exmtx } rfl
      (Coherent_closeOut hq hm hp rfl rfl hx rfl rfl rfl)
  · exact key _ { expired := ot.expired, store := ot.store ++ r, id := ot.id, exmtx := ot.exmtx }
      rfl (Coherent_append hq hm hp rfl he hx rfl rfl rfl)

/-- The call `InsertValues` returns in every coherent state, keeps the invariant and
adds `r` to the records of the stream. -/
theorem InsertValues_step {q : Quasar} (hq : Coherent q) (id : UUID) (r : List Record) :
    ∃ q1, InsertValues q id r = some q1 ∧ Coherent q1 ∧
      ∀ i, total q1 i = total q i ++ (if i = id then r else []) := by
  have absent : ∀ (q0 : Quasar) (fuel : Nat), Coherent q0 →
      q0.openTrees (UUIDToMapKey id) = none →
      ∃ q1, albert id r (fuel + 1) q0 = some q1 ∧ Coherent q1 ∧
        ∀ i, total q1 i = total q0 i ++ (if i = id then r else []) := by
    intro q0 fuel h0 hm0
    obtain ⟨hc, ht⟩ := Coherent_create h0 hm0
    have hm1 : (lookupOrCreate q0 id).1.openTrees id = some q0.heap.length := by
      rw [lookupOrCreate_none hm0]
      simp
    have hp1 : (lookupOrCreate q0 id).1.heap[q0.heap.length]? = some (newOpenTree id) := by
      rw [lookupOrCreate_none hm0]
      simp
    obtain ⟨h1, h2⟩ := Coherent_appendAndTrip hc r hm1 hp1 rfl
    refine ⟨_, albert_absent r fuel hm0, h1, fun i => ?_⟩
    rw [h2 i, ht i]
  unfold InsertValues
  cases hm : q.openTrees (UUIDToMapKey id) with
  | none => exact absent q 1 hq hm
  | some p =>
    obtain ⟨ot, hp, _⟩ := hq.live _ p hm
    cases he : ot.expired with
    | false =>
      obtain ⟨h1, h2⟩ := Coherent_appendAndTrip hq r hm hp he
      exact ⟨_, albert_open r 1 hm hp he, h1, h2⟩
    | true =>
      rw [albert_expired r 1 hm hp he (hq.free p ot hp)]
      obtain ⟨hd, htd⟩ := Coherent_deleteOT_expired hq hm hp he
      obtain ⟨q1, h1, h2, h3⟩ := absent _ 0 hd (by simp)
      refine ⟨q1, h1, h2, fun i => ?_⟩
      rw [h3 i, htd i]

/-- The call `Flush` returns in every coherent state, keeps the invariant and the
records. -/
theorem Flush_step {q : Quasar} (hq : Coherent q) (id : UUID) :
    ∃ q1 e, Flush q id = some (q1, e) ∧ Coherent q1 ∧ ∀ i, total q1 i = total q i := by
  unfold Flush
  cases hm : q.openTrees (UUIDToMapKey id) with
  | none => exact ⟨q, _, rfl, hq, fun _ => rfl⟩
  | some p =>
    obtain ⟨ot, hp, _⟩ := hq.live _ p hm
    simp only [hp]
    cases he : ot.expired with
    | true => exact ⟨q, _, rfl, hq, fun _ => rfl⟩
    | false =>
      simp only [Bool.false_eq_true, if_false]
      obtain ⟨h1, h2⟩ := @Coherent_closeOut q (Commit { ot with expired := true }
        (deleteOT (setOT q p { ot with expired := true }) (UUIDToMapKey id)))
        hq (UUIDToMapKey id) p ot { ot with expired := true } hm hp rfl rfl
        (hq.free p ot hp) rfl rfl rfl
      refine ⟨_, _, rfl, h1, fun i => ?_⟩
      rw [h2 i]
      unfold total
      by_cases hi : i = id
      · subst hi
        have hm2 : q.openTrees i = some p := hm
        simp [openStore_open hm2 hp he]
      · simp [hi]

/-- The timer goroutine on an open buffer: the buffer is marked expired and handed to
`Commit`; `exmtx` is released unless the commit panics; the map is left alone. -/
theorem timerFire_open {q : Quasar} {p : Nat} {ot : openTree} (hp : q.heap[p]? = some ot)
    (he : ot.expired = false) :
    (timerFire q p).heap
        = q.heap.set p { ot with expired := true, exmtx := (NewWriteQTree q ot.id).isSome } ∧
    (timerFire q p).committed = q.committed ++ [(ot.id, ot.store)] ∧
    (timerFire q p).openTrees = q.openTrees ∧
    (timerFire q p).bs = q.bs ∧
    (timerFire q p).panicked =
      match NewWriteQTree q ot.id with
      | some err => some err
      | none => q.panicked := by
  have hlt := heap_lt hp
  cases hw : NewWriteQTree q ot.id with
  | none =>
    have hw2 : q.bs q.committed ot.id = none := hw
    simp [timerFire, timerCommit, timerExpire, hp, he, setOT, Commit, NewWriteQTree, hw2,
      List.getElem?_set_self hlt, List.set_set]
  | some err =>
    have hw2 : q.bs q.committed ot.id = some err := hw
    simp [timerFire, timerCommit, timerExpire, hp, he, setOT, Commit, NewWriteQTree, hw2,
      List.getElem?_set_self hlt]

theorem timerFire_idle {q : Quasar} {p : Nat}
    (h : q.heap[p]? = none ∨ ∃ ot, q.heap[p]? = some ot ∧ ot.expired = true) :
    timerFire q p = q := by
  rcases h with h | ⟨ot, h, he⟩
  · simp [timerFire, h]
  · simp [timerFire, h, he]

/-- The timer goroutine keeps the records, and the invariant unless its commit
panics. -/
theorem timerFire_step {q : Quasar} (hq : Coherent q) (p : Nat) :
    ((timerFire q p).panicked = none → Coherent (timerFire q p)) ∧
      ∀ i, total (timerFire q p) i = total q i := by
  cases hp : q.heap[p]? with
  | none =>
    rw [timerFire_idle (Or.inl hp)]
    exact ⟨fun _ => hq, fun _ => rfl⟩
  | some ot =>
    cases he : ot.expired with
    | true =>
      rw [timerFire_idle (Or.inr ⟨ot, hp, he⟩)]
      exact ⟨fun _ => hq, fun _ => rfl⟩
    | false =>
      obtain ⟨hh, hc, ho, _, hpn⟩ := timerFire_open hp he
      obtain ⟨h1, h2⟩ := @Coherent_timer q (timerFire q p) hq p ot
        { ot with expired := true, exmtx := (NewWriteQTree q ot.id).isSome } hp he
        rfl rfl rfl ho hh hc
      refine ⟨fun hn => h1 ?_, h2⟩
      rw [hpn] at hn
      cases hw : NewWriteQTree q ot.id with
      | none => rfl
      | some err =>
        rw [hw] at hn
        cases hn

/-- Two passes through the label `albert` are enough: more fuel never changes the
result of `InsertValues`. -/
theorem albert_fuel_irrelevant (q : Quasar) (id : UUID) (r : List Record) (n : Nat) :
    albert id r (n + 2) q = InsertValues q id r := by
  unfold InsertValues
  cases hm : q.openTrees (UUIDToMapKey id) with
  | none => rw [albert_absent r (n + 1) hm, albert_absent r 1 hm]
  | some p =>
    cases hp : q.heap[p]? with
    | none => simp [albert, lookupOrCreate_some hm, hp]
    | some ot =>
      cases he : ot.expired with
      | false => rw [albert_open r (n + 1) hm hp he, albert_open r 1 hm hp he]
      | true =>
        cases hx : ot.exmtx with
        | true => simp [albert, lookupOrCreate_some hm, hp, he, hx]
        | false =>
          rw [albert_expired r (n + 1) hm hp he hx, albert_expired r 1 hm hp he hx]
          have hd : (deleteOT q (UUIDToMapKey id)).openTrees (UUIDToMapKey id) = none := by
            simp
          rw [albert_absent r n hd, albert_absent r 0 hd]

/-- Every atomic call completes in a coherent state, adds to the records of each stream
exactly what it inserts for it, and keeps the invariant unless it panics. -/
theorem applyOp_total {q : Quasar} (hq : Coherent q) (op : Op) :
    ∃ q1, applyOp q op = some q1 ∧ (q1.panicked = none → Coherent q1) ∧
      ∀ i, total q1 i = total q i ++ inserted i [op] := by
  cases op with
  | insert id r =>
    obtain ⟨q1, h1, h2, h3⟩ := InsertValues_step hq id r
    refine ⟨q1, h1, fun _ => h2, fun i => ?_⟩
    rw [h3 i]
    by_cases hi : i = id
    · subst hi
      simp [inserted]
    · have hi2 : ¬ id = i := fun h => hi h.symm
      simp [inserted, hi, hi2]
  | flush id =>
    obtain ⟨q1, e, h1, h2, h3⟩ := Flush_step hq id
    refine ⟨q1, by simp [applyOp, h1], fun _ => h2, fun i => ?_⟩
    rw [h3 i]
    simp [inserted]
  | timer p =>
    obtain ⟨h2, h3⟩ := timerFire_step hq p
    refine ⟨_, rfl, h2, fun i => ?_⟩
    rw [h3 i]
    simp [inserted]

theorem step_live {q : Quasar} (hn : q.panicked = none) (op : Op) :
    step q op = applyOp q op := by
  simp [step, hn]

theorem step_dead {q : Quasar} (hn : q.panicked ≠ none) (op : Op) : step q op = none := by
  cases h : q.panicked with
  | none => exact absurd h hn
  | some e => simp [step, h]

theorem inserted_cons (i : UUID) (op : Op) (ops : List Op) :
    inserted i (op :: ops) = inserted i [op] ++ inserted i ops := by
  cases op with
  | insert id r =>
    by_cases h : id = i <;> simp [inserted, h]
  | flush id => simp [inserted]
  | timer p => simp [inserted]

/-- Whenever a finite sequence of atomic steps runs from a coherent live state, it adds to
the records of each stream exactly what the sequence inserts for it. -/
theorem run_conserves (ops : List Op) : ∀ {q q2 : Quasar}, Coherent q → q.panicked = none →
    run ops q = some q2 → ∀ i, total q2 i = total q i ++ inserted i ops := by
  induction ops with
  | nil =>
    intro q q2 _ _ h i
    simp only [run, Option.some.injEq] at h
    subst h
    simp [inserted]
  | cons op ops ih =>
    intro q q2 hq hn h i
    obtain ⟨q1, h1, h2, h3⟩ := applyOp_total hq op
    simp only [run, step_live hn, h1, Option.some_bind] at h
    rw [inserted_cons i op ops, ← List.append_assoc, ← h3 i]
    cases hp : q1.panicked with
    | none => exact ih (h2 hp) hp h i
    | some e =>
      cases ops with
      | nil =>
        simp only [run, Option.some.injEq] at h
        subst h
        simp [inserted]
      | cons op2 rest =>
        have hd : step q1 op2 = none := step_dead (by rw [hp]; simp) op2
        simp [run, hd] at h

/-- From a coherent live state every finite sequence of atomic steps runs to its end or
up to a step that panics: no step blocks, meets a dangling pointer or runs out of
fuel. -/
theorem run_progress (ops : List Op) : ∀ {q : Quasar}, Coherent q → q.panicked = none →
    ∃ n q2, n ≤ ops.length ∧ run (ops.take n) q = some q2 ∧
      (n = ops.length ∨ q2.panicked ≠ none) := by
  induction ops with
  | nil =>
    intro q _ _
    exact ⟨0, q, le_refl _, rfl, Or.inl rfl⟩
  | cons op ops ih =>
    intro q hq hn
    obtain ⟨q1, h1, h2, _⟩ := applyOp_total hq op
    cases hp : q1.panicked with
    | none =>
      obtain ⟨n, q2, k1, k2, k3⟩ := ih (h2 hp) hp
      refine ⟨n + 1, q2, by simp; omega, ?_, ?_⟩
      · simp [run, step_live hn, h1, k2]
      · rcases k3 with k3 | k3
        · exact Or.inl (by simp [k3])
        · exact Or.inr k3
    | some e =>
      refine ⟨1, q1, by simp, ?_, Or.inr (by rw [hp]; simp)⟩
      simp [run, step_live hn, h1]

theorem toInt_of_lt {x : Nat} (h : x < 2 ^ 63) : toInt x = (x : Int) := by
  unfold toInt
  have h1 : x % 2 ^ 64 = x := Nat.mod_eq_of_lt (by omega)
  rw [h1, if_pos h]

/-- Lines 128-140 on a buffer that is registered and open, when the threshold is below
`2 ^ 63`: the two outcomes of the early-trip test. -/
theorem appendAndTrip_spec (q : Quasar) (id : UUID) (p : Nat) (ot : openTree)
    (r : List Record) (hT : q.cfg.TransactionCoalesceEarlyTrip < 2 ^ 63)
    (hlt : p < q.heap.length) :
    (appendAndTrip q id p ot r).cfg = q.cfg ∧
    (q.cfg.TransactionCoalesceEarlyTrip ≤ ot.store.length + r.length →
      (appendAndTrip q id p ot r).committed = q.committed ++ [(ot.id, ot.store ++ r)] ∧
      (appendAndTrip q id p ot r).openTrees (UUIDToMapKey id) = none) ∧
    (¬ q.cfg.TransactionCoalesceEarlyTrip ≤ ot.store.length + r.length →
      (appendAndTrip q id p ot r).committed = q.committed ∧
      (appendAndTrip q id p ot r).openTrees = q.openTrees ∧
      (appendAndTrip q id p ot r).heap[p]? = some { ot with store := ot.store ++ r }) := by
  have hc : toInt q.cfg.TransactionCoalesceEarlyTrip ≤ ((ot.store ++ r).length : Int) ↔
      q.cfg.TransactionCoalesceEarlyTrip ≤ ot.store.length + r.length := by
    rw [toInt_of_lt hT, List.length_append]
    omega
  unfold appendAndTrip
  simp only [hc]
  refine ⟨?_, ?_, ?_⟩
  · split <;> rfl
  · intro h
    rw [if_pos h]
    simp
  · intro h
    rw [if_neg h]
    simp [List.getElem?_set_self hlt]

/-- The early-trip behaviour of `InsertValues` on a stream whose buffer is absent
(`store = []`) or open with the records `store`, for a threshold below `2 ^ 63`. -/
theorem InsertValues_early_trip (q : Quasar) (id : UUID) (r store : List Record)
    (hT : q.cfg.TransactionCoalesceEarlyTrip < 2 ^ 63)
    (hs : (q.openTrees (UUIDToMapKey id) = none ∧ store = []) ∨
      ∃ p ot, q.openTrees (UUIDToMapKey id) = some p ∧ q.heap[p]? = some ot ∧
        ot.expired = false ∧ ot.id = id ∧ ot.store = store) :
    ∃ q1, InsertValues q id r = some q1 ∧ q1.cfg = q.cfg ∧
      (q.cfg.TransactionCoalesceEarlyTrip ≤ store.length + r.length →
        q1.committed = q.committed ++ [(id, store ++ r)] ∧
        q1.openTrees (UUIDToMapKey id) = none) ∧
      (¬ q.cfg.TransactionCoalesceEarlyTrip ≤ store.length + r.length →
        q1.committed = q.committed ∧
        ∃ p ot, q1.openTrees (UUIDToMapKey id) = some p ∧ q1.heap[p]? = some ot ∧
          ot.expired = false ∧ ot.id = id ∧ ot.store = store ++ r) := by
  rcases hs with ⟨hm, hst⟩ | ⟨p, ot, hm, hp, he, hid, hst⟩
  · subst hst
    have hT1 : (lookupOrCreate q id).1.cfg.TransactionCoalesceEarlyTrip < 2 ^ 63 := by
      rw [lookupOrCreate_none hm]
      exact hT
    have hlt : q.heap.length < (lookupOrCreate q id).1.heap.length := by
      rw [lookupOrCreate_none hm]
      simp
    obtain ⟨h1, h2, h3⟩ := appendAndTrip_spec (lookupOrCreate q id).1 id q.heap.length
      (newOpenTree id) r hT1 hlt
    rw [lookupOrCreate_none hm] at h1 h2 h3
    refine ⟨_, albert_absent r 1 hm, ?_, ?_, ?_⟩
    · rw [lookupOrCreate_none hm]
      exact h1
    · intro h
      rw [lookupOrCreate_none hm]
      simpa [newOpenTree] using h2 (by simpa [newOpenTree] using h)
    · intro h
      rw [lookupOrCreate_none hm]
      obtain ⟨k1, k2, k3⟩ := h3 (by simpa [newOpenTree] using h)
      refine ⟨k1, q.heap.length, _, ?_, k3, rfl, rfl, by simp [newOpenTree]⟩
      rw [k2]
      simp
  · subst hst
    obtain ⟨h1, h2, h3⟩ := appendAndTrip_spec q id p ot r hT (heap_lt hp)
    refine ⟨_, albert_open r 1 hm hp he, h1, ?_, ?_⟩
    · intro h
      rw [← hid]
      rw [← hid] at h2
      exact h2 h
    · intro h
      obtain ⟨k1, k2, k3⟩ := h3 h
      refine ⟨k1, p, _, ?_, k3, he, hid, rfl⟩
      rw [k2]
      exact hm

/-- The call `Flush` on a registered open buffer: one call of `Commit`, on the buffer, and the
entry is removed. -/
theorem Flush_open {q : Quasar} {id : UUID} {p : Nat} {ot : openTree}
    (hm : q.openTrees (UUIDToMapKey id) = some p) (hp : q.heap[p]? = some ot)
    (he : ot.expired = false) :
    Flush q id = some (Commit { ot with expired := true }
      (deleteOT (setOT q p { ot with expired := true }) (UUIDToMapKey id)),
      match NewWriteQTree q ot.id with
      | some err => Ending.panics err
      | none => Ending.returns none) := by
  unfold Flush
  rw [hm]
  simp only [hp, he]
  rfl

/-- The call `Flush` on a registered expired buffer returns `nil` at once, whether or
not `exmtx` is held. -/
theorem Flush_expired {q : Quasar} {id : UUID} {p : Nat} {ot : openTree}
    (hm : q.openTrees (UUIDToMapKey id) = some p) (hp : q.heap[p]? = some ot)
    (he : ot.expired = true) : Flush q id = some (q, Ending.returns none) := by
  unfold Flush
  rw [hm]
  simp only [hp, he]
  rfl

theorem Flush_none {q : Quasar} {id : UUID} (hm : q.openTrees (UUIDToMapKey id) = none) :
    Flush q id = some (q, Ending.returns (some Error.ErrNoSuchStream)) := by
  unfold Flush
  rw [hm]

/-- Shape of the result of ll. 128-140: the buffer at `p` is overwritten by one whose
store is `ot.store ++ r`; either nothing is committed and the map is left alone, or the
new store is committed and the entry of the stream is removed. -/
theorem appendAndTrip_shape (q : Quasar) (id : UUID) (p : Nat) (ot : openTree)
    (r : List Record) :
    ∃ t : openTree, (appendAndTrip q id p ot r).heap = q.heap.set p t ∧
      t.store = ot.store ++ r ∧ t.id = ot.id ∧
      (((appendAndTrip q id p ot r).committed = q.committed ∧
          (appendAndTrip q id p ot r).openTrees = q.openTrees) ∨
        ((appendAndTrip q id p ot r).committed = q.committed ++ [(ot.id, ot.store ++ r)] ∧
          (appendAndTrip q id p ot r).openTrees (UUIDToMapKey id) = none)) := by
  unfold appendAndTrip
  simp only
  split
  · exact ⟨_, rfl, rfl, rfl, Or.inr ⟨rfl, by simp⟩⟩
  · exact ⟨_, rfl, rfl, rfl, Or.inl ⟨rfl, rfl⟩⟩

theorem InsertValues_expired {q : Quasar} {id : UUID} {p : Nat} {ot : openTree}
    (r : List Record) (hm : q.openTrees (UUIDToMapKey id) = some p)
    (hp : q.heap[p]? = some ot) (he : ot.expired = true) (hx : ot.exmtx = false) :
    InsertValues q id r = some (appendAndTrip
      (lookupOrCreate (deleteOT q (UUIDToMapKey id)) id).1 id q.heap.length
      (newOpenTree id) r) := by
  unfold InsertValues
  rw [albert_expired r 1 hm hp he hx]
  have hd : (deleteOT q (UUIDToMapKey id)).openTrees (UUIDToMapKey id) = none := by simp
  rw [albert_absent r 0 hd]
  rfl

theorem InsertValues_blocked {q : Quasar} {id : UUID} {p : Nat} {ot : openTree}
    (r : List Record) (hm : q.openTrees (UUIDToMapKey id) = some p)
    (hp : q.heap[p]? = some ot) (he : ot.expired = true) (hx : ot.exmtx = true) :
    InsertValues q id r = none := by
  simp only [InsertValues, albert, lookupOrCreate_some hm, hp, he, hx]
  rfl

theorem create_heap {q : Quasar} {id : UUID} (hm : q.openTrees (UUIDToMapKey id) = none) :
    (lookupOrCreate q id).1.heap = q.heap ++ [newOpenTree id] ∧
    (lookupOrCreate q id).1.committed = q.committed ∧
    (lookupOrCreate q id).1.openTrees
      = Function.update q.openTrees (UUIDToMapKey id) (some q.heap.length) := by
  rw [lookupOrCreate_none hm]
  exact ⟨rfl, rfl, rfl⟩

theorem create_frame {q : Quasar} {id : UUID} (hm : q.openTrees (UUIDToMapKey id) = none) :
    (lookupOrCreate q id).1.bs = q.bs ∧ (lookupOrCreate q id).1.panicked = q.panicked ∧
    (lookupOrCreate q id).1.cfg = q.cfg := by
  rw [lookupOrCreate_none hm]
  exact ⟨rfl, rfl, rfl⟩

/-- Lines 128-140 leave the block store alone, and the process alive when the write tree
of the stream opens. -/
theorem appendAndTrip_frame (q : Quasar) (id : UUID) (p : Nat) (ot : openTree)
    (r : List Record) :
    (appendAndTrip q id p ot r).bs = q.bs ∧
    (NewWriteQTree q ot.id = none → (appendAndTrip q id p ot r).panicked = q.panicked) := by
  unfold appendAndTrip
  simp only
  split
  · refine ⟨rfl, fun h => ?_⟩
    have h2 : q.bs q.committed ot.id = none := h
    simp [Commit, NewWriteQTree, h2]
  · exact ⟨rfl, fun _ => rfl⟩

theorem append_lookup {l : List openTree} {a b : openTree} {p : Nat} (h : l[p]? = some b) :
    (l ++ [a])[p]? = some b := by
  rw [List.getElem?_append_left (List.getElem?_eq_some.mp h).1]
  exact h

/-- Every returning call of `InsertValues` is ll. 128-140 applied to an open buffer, in a
state that has the same commit log and still holds every buffer that existed. -/
theorem InsertValues_cases (q : Quasar) (id : UUID) (r : List Record) :
    InsertValues q id r = none ∨
    ∃ q0 p0 ot0, InsertValues q id r = some (appendAndTrip q0 id p0 ot0 r) ∧
      q0.committed = q.committed ∧ q0.heap[p0]? = some ot0 ∧ ot0.expired = false ∧
      (∀ (p : Nat) (b : openTree), q.heap[p]? = some b → q0.heap[p]? = some b) ∧
      q0.bs = q.bs ∧ q0.panicked = q.panicked := by
  have fresh : ∀ q0 : Quasar, q0.openTrees (UUIDToMapKey id) = none →
      (lookupOrCreate q0 id).1.committed = q0.committed ∧
      (lookupOrCreate q0 id).1.heap[q0.heap.length]? = some (newOpenTree id) ∧
      (∀ (p : Nat) (b : openTree), q0.heap[p]? = some b →
        (lookupOrCreate q0 id).1.heap[p]? = some b) ∧
      (lookupOrCreate q0 id).1.bs = q0.bs ∧
      (lookupOrCreate q0 id).1.panicked = q0.panicked := by
    intro q0 h0
    obtain ⟨h1, h2, _⟩ := create_heap h0
    obtain ⟨f1, f2, _⟩ := create_frame h0
    refine ⟨h2, ?_, ?_, f1, f2⟩
    · rw [h1]
      simp
    · intro p b hb
      rw [h1]
      exact append_lookup hb
  cases hm : q.openTrees (UUIDToMapKey id) with
  | none =>
    obtain ⟨h1, h2, h3, h4, h5⟩ := fresh q hm
    exact Or.inr ⟨_, _, _, albert_absent r 1 hm, h1, h2, rfl, h3, h4, h5⟩
  | some p =>
    cases hp : q.heap[p]? with
    | none =>
      left
      simp only [InsertValues, albert, lookupOrCreate_some hm, hp]
    | some ot =>
      cases he : ot.expired with
      | false =>
        exact Or.inr ⟨q, p, ot, albert_open r 1 hm hp he, rfl, hp, he, fun _ _ h => h, rfl,
          rfl⟩
      | true =>
        cases hx : ot.exmtx with
        | true => exact Or.inl (InsertValues_blocked r hm hp he hx)
        | false =>
          have hd : (deleteOT q (UUIDToMapKey id)).openTrees (UUIDToMapKey id) = none := by
            simp
          obtain ⟨h1, h2, h3, h4, h5⟩ := fresh _ hd
          exact Or.inr ⟨_, _, _, InsertValues_expired r hm hp he hx, h1, h2, rfl, h3, h4, h5⟩

theorem set_keeps_expired {l : List openTree} {p0 p : Nat} {ot0 t b : openTree}
    (h0 : l[p0]? = some ot0) (he0 : ot0.expired = false) (hb : l[p]? = some b)
    (he : b.expired = true) : (l.set p0 t)[p]? = some b := by
  have hne : p0 ≠ p := by
    intro heq
    subst heq
    rw [h0] at hb
    cases hb
    rw [he0] at he
    cases he
  rw [List.getElem?_set_ne hne]
  exact hb

theorem timerExpire_keeps (q : Quasar) (p0 p : Nat) (b : openTree)
    (hb : q.heap[p]? = some b) (he : b.expired = true) :
    (timerExpire q p0).heap[p]? = some b := by
  unfold timerExpire
  cases h0 : q.heap[p0]? with
  | none => exact hb
  | some ot0 =>
    cases he0 : ot0.expired with
    | true => simpa [he0] using hb
    | false =>
      simp only [he0]
      exact set_keeps_expired h0 he0 hb he

theorem timerCommit_keeps (q : Quasar) (p0 p : Nat) (b : openTree)
    (hb : q.heap[p]? = some b) (he : b.expired = true) :
    ∃ b1, (timerCommit q p0).heap[p]? = some b1 ∧ b1.store = b.store ∧ b1.expired = true := by
  unfold timerCommit
  cases h0 : q.heap[p0]? with
  | none => exact ⟨b, hb, rfl, he⟩
  | some ot0 =>
    cases hx : ot0.exmtx with
    | false => exact ⟨b, by simpa [hx] using hb, rfl, he⟩
    | true =>
      cases hw : NewWriteQTree q ot0.id with
      | some err => exact ⟨b, by simpa [hx, hw] using hb, rfl, he⟩
      | none =>
        by_cases hpp : p0 = p
        · subst hpp
          rw [h0] at hb
          cases hb
          refine ⟨{ b with exmtx := false }, ?_, rfl, he⟩
          simp [hx, hw, List.getElem?_set_self (heap_lt h0)]
        · refine ⟨b, ?_, rfl, he⟩
          simp [hx, hw, List.getElem?_set_ne hpp, hb]

theorem timerFire_keeps (q : Quasar) (p0 p : Nat) (b : openTree)
    (hb : q.heap[p]? = some b) (he : b.expired = true) :
    (timerFire q p0).heap[p]? = some b := by
  cases h0 : q.heap[p0]? with
  | none =>
    have : timerFire q p0 = q := by simp [timerFire, h0]
    rw [this]
    exact hb
  | some ot0 =>
    cases he0 : ot0.expired with
    | true =>
      have : timerFire q p0 = q := by simp [timerFire, h0, he0]
      rw [this]
      exact hb
    | false =>
      rw [(timerFire_open h0 he0).1]
      exact set_keeps_expired h0 he0 hb he

/-- No atomic call changes a buffer whose `expired` flag is set. -/
theorem applyOp_keeps (q q1 : Quasar) (op : Op) (p : Nat) (b : openTree)
    (hs : applyOp q op = some q1) (hb : q.heap[p]? = some b) (he : b.expired = true) :
    q1.heap[p]? = some b := by
  cases op with
  | insert id r =>
    rcases InsertValues_cases q id r with hn | ⟨q0, p0, ot0, h1, _, h3, h4, h5⟩
    · simp [applyOp, hn] at hs
    · simp only [applyOp, h1, Option.some.injEq] at hs
      subst hs
      obtain ⟨t, ht, _⟩ := appendAndTrip_shape q0 id p0 ot0 r
      rw [ht]
      exact set_keeps_expired h3 h4 (h5.1 p b hb) he
  | flush id =>
    cases hm : q.openTrees (UUIDToMapKey id) with
    | none =>
      simp only [applyOp, Flush_none hm, Option.map_some', Option.some.injEq] at hs
      subst hs
      exact hb
    | some p0 =>
      cases h0 : q.heap[p0]? with
      | none =>
        have hf : Flush q id = none := by
          unfold Flush
          rw [hm]
          simp only [h0]
        simp [applyOp, hf] at hs
      | some ot0 =>
        cases he0 : ot0.expired with
        | true =>
          simp only [applyOp, Flush_expired hm h0 he0, Option.map_some', Option.some.injEq] at hs
          subst hs
          exact hb
        | false =>
          simp only [applyOp, Flush_open hm h0 he0, Option.map_some', Option.some.injEq] at hs
          subst hs
          exact set_keeps_expired h0 he0 hb he
  | timer p0 =>
    simp only [applyOp, Option.some.injEq] at hs
    subst hs
    exact timerFire_keeps q p0 p b hb he


/-- No atomic step changes a buffer whose `expired` flag is set. -/
theorem step_keeps (q q1 : Quasar) (op : Op) (p : Nat) (b : openTree)
    (hs : step q op = some q1) (hb : q.heap[p]? = some b) (he : b.expired = true) :
    q1.heap[p]? = some b := by
  unfold step at hs
  split at hs
  · cases hs
  · exact applyOp_keeps q q1 op p b hs hb he

/-- No atomic call changes the block store, and none panics when every write tree
opens. -/
theorem applyOp_frame (q q1 : Quasar) (op : Op) (hs : applyOp q op = some q1) :
    q1.bs = q.bs ∧ ((∀ log id, q.bs log id = none) → q1.panicked = q.panicked) := by
  cases op with
  | insert id r =>
    rcases InsertValues_cases q id r with hn | ⟨q0, p0, ot0, h1, h2, _, _, _, h6, h7⟩
    · simp [applyOp, hn] at hs
    · simp only [applyOp, h1, Option.some.injEq] at hs
      subst hs
      obtain ⟨f1, f2⟩ := appendAndTrip_frame q0 id p0 ot0 r
      refine ⟨f1.trans h6, fun hno => ?_⟩
      rw [f2 (by simp [NewWriteQTree, h6, hno]), h7]
  | flush id =>
    cases hm : q.openTrees (UUIDToMapKey id) with
    | none =>
      simp only [applyOp, Flush_none hm, Option.map_some', Option.some.injEq] at hs
      subst hs
      exact ⟨rfl, fun _ => rfl⟩
    | some p0 =>
      cases h0 : q.heap[p0]? with
      | none =>
        have hf : Flush q id = none := by
          unfold Flush
          rw [hm]
          simp only [h0]
        simp [applyOp, hf] at hs
      | some ot0 =>
        cases he0 : ot0.expired with
        | true =>
          simp only [applyOp, Flush_expired hm h0 he0, Option.map_some', Option.some.injEq]
            at hs
          subst hs
          exact ⟨rfl, fun _ => rfl⟩
        | false =>
          simp only [applyOp, Flush_open hm h0 he0, Option.map_some', Option.some.injEq] at hs
          subst hs
          refine ⟨rfl, fun hno => ?_⟩
          simp [Commit, NewWriteQTree, hno]
  | timer p0 =>
    simp only [applyOp, Option.some.injEq] at hs
    subst hs
    cases h0 : q.heap[p0]? with
    | none =>
      rw [timerFire_idle (Or.inl h0)]
      exact ⟨rfl, fun _ => rfl⟩
    | some ot0 =>
      cases he0 : ot0.expired with
      | true =>
        rw [timerFire_idle (Or.inr ⟨ot0, h0, he0⟩)]
        exact ⟨rfl, fun _ => rfl⟩
      | false =>
        obtain ⟨_, _, _, hb, hpn⟩ := timerFire_open h0 he0
        refine ⟨hb, fun hno => ?_⟩
        rw [hpn]
        simp [NewWriteQTree, hno]

/-- When every write tree opens, every finite sequence of atomic steps runs to its end
from a coherent live state, without a panic. -/
theorem run_returns (ops : List Op) : ∀ {q : Quasar}, Coherent q → q.panicked = none →
    (∀ log id, q.bs log id = none) → ∃ q2, run ops q = some q2 ∧ q2.panicked = none := by
  induction ops with
  | nil =>
    intro q _ hn _
    exact ⟨q, rfl, hn⟩
  | cons op ops ih =>
    intro q hq hn hno
    obtain ⟨q1, h1, h2, _⟩ := applyOp_total hq op
    obtain ⟨f1, f2⟩ := applyOp_frame q q1 op h1
    have hn1 : q1.panicked = none := (f2 hno).trans hn
    obtain ⟨q2, k1, k2⟩ := ih (h2 hn1) hn1 (by rw [f1]; exact hno)
    exact ⟨q2, by simp [run, step_live hn, h1, k1], k2⟩

/-- C1 (record conservation).  Start from the empty `openTrees` map of `NewQuasar`, on any
block store, and take any finite sequence of atomic `InsertValues`, `Flush` and timer
steps (on any streams).  Whenever the sequence runs, then for every stream `id` the
record slices handed to `openTree.Commit` for `id`, concatenated in call order and
followed by the store of the non-expired buffer of `id` in `openTrees` (if any), are
exactly the record slices passed to `InsertValues` for `id`, concatenated in call order.
Every sequence runs to its end or up to a step whose commit panics, at which the
process ends; and when every write tree opens, every sequence runs to its end. -/
theorem record_conservation (cfg : QuasarConfig)
    (bs : List (UUID × List Record) → UUID → Option Error) (ops : List Op) :
    (∀ q, run ops (NewQuasar cfg bs) = some q →
      ∀ id, committedFor q id ++ openStore q id = inserted id ops) ∧
    (∃ n q, n ≤ ops.length ∧ run (ops.take n) (NewQuasar cfg bs) = some q ∧
      (n = ops.length ∨ q.panicked ≠ none)) ∧
    ((∀ log id, bs log id = none) →
      ∃ q, run ops (NewQuasar cfg bs) = some q ∧ q.panicked = none ∧
        ∀ id, committedFor q id ++ openStore q id = inserted id ops) := by
  have key : ∀ q, run ops (NewQuasar cfg bs) = some q →
      ∀ id, committedFor q id ++ openStore q id = inserted id ops := by
    intro q h id
    have := run_conserves ops (Coherent_NewQuasar cfg bs) rfl h id
    rw [total_NewQuasar] at this
    simpa [total] using this
  refine ⟨key, run_progress ops (Coherent_NewQuasar cfg bs) rfl, fun hno => ?_⟩
  obtain ⟨q, h1, h2⟩ := run_returns ops (Coherent_NewQuasar cfg bs) rfl hno
  exact ⟨q, h1, h2, key q h1⟩

/-- Witness of `record_conservation`: on a block store that opens every write tree, with
threshold 2, two inserts on stream 7 (the second trips), an insert on stream 8, the
timer of the buffer of stream 8 and a flush of stream 7. -/
theorem record_conservation_witness :
    (run [Op.insert 7 [{ Time := 1, Val := 1 }], Op.insert 7 [{ Time := 2, Val := 2 }],
          Op.insert 8 [{ Time := 3, Val := 3 }], Op.timer 1, Op.flush 7]
        (NewQuasar { DefaultQuasarConfig with TransactionCoalesceEarlyTrip := 2 }
          (fun _ _ => none))).map (fun q => (q.committed, q.panicked))
      = some ([(7, [{ Time := 1, Val := 1 }, { Time := 2, Val := 2 }]),
               (8, [{ Time := 3, Val := 3 }])], none) ∧
    ∃ q, run [Op.insert 7 [{ Time := 1, Val := 1 }], Op.insert 7 [{ Time := 2, Val := 2 }],
          Op.insert 8 [{ Time := 3, Val := 3 }], Op.timer 1, Op.flush 7]
        (NewQuasar { DefaultQuasarConfig with TransactionCoalesceEarlyTrip := 2 }
          (fun _ _ => none)) = some q ∧ q.panicked = none ∧
      ∀ id, committedFor q id ++ openStore q id =
        inserted id [Op.insert 7 [{ Time := 1, Val := 1 }],
          Op.insert 7 [{ Time := 2, Val := 2 }], Op.insert 8 [{ Time := 3, Val := 3 }],
          Op.timer 1, Op.flush 7] :=
  ⟨by decide, (record_conservation _ _ _).2.2 (fun _ _ => rfl)⟩

/-- C2 (early trip): the code at the failing input.  With
`TransactionCoalesceEarlyTrip = 2 ^ 63` the conversion `int(...)` of l. 129 yields
`-2 ^ 63`, so the test `len(ot.store) >= int(...)` succeeds for every store:
`InsertValues` of one record on an absent stream commits that record, returns and
leaves no entry, although `0 + 1 < TransactionCoalesceEarlyTrip`.  With the threshold
`2 ^ 63 - 1` the same call commits nothing and leaves the buffer open. -/
theorem early_trip_int_conversion :
    toInt (2 ^ 63) = -(2 ^ 63) ∧
    (NewQuasar { DefaultQuasarConfig with TransactionCoalesceEarlyTrip := 2 ^ 63 }
        (fun _ _ => none)).openTrees (UUIDToMapKey 7) = none ∧
    ¬ (2 ^ 63 ≤ 0 + [({ Time := 1, Val := 1 } : Record)].length) ∧
    (InsertValues (NewQuasar { DefaultQuasarConfig with TransactionCoalesceEarlyTrip := 2 ^ 63 }
        (fun _ _ => none)) 7 [{ Time := 1, Val := 1 }]).map
        (fun q => (q.committed, q.openTrees (UUIDToMapKey 7), q.panicked))
      = some ([(7, [{ Time := 1, Val := 1 }])], none, none) ∧
    (InsertValues (NewQuasar
        { DefaultQuasarConfig with TransactionCoalesceEarlyTrip := 2 ^ 63 - 1 }
        (fun _ _ => none)) 7 [{ Time := 1, Val := 1 }]).map
        (fun q => (q.committed, q.openTrees (UUIDToMapKey 7), q.heap, q.panicked))
      = some ([], some 0, [{ expired := false, store := [{ Time := 1, Val := 1 }], id := 7,
                              exmtx := false }], none) := by
  refine ⟨by decide, rfl, by decide, by decide, by decide⟩

/-- C3 (flush twice), amended: on a stream with an open buffer, the first of two
consecutive calls of `Flush` hands the buffer to `Commit` (exactly one call) and removes
the entry.  When the write tree of the stream opens, that call returns `nil`, and the
second call returns `ErrNoSuchStream`, commits nothing and changes nothing, so that the
two calls together perform exactly one commit.  When `NewWriteQTree` fails, the first
call panics in `Commit` instead of returning. -/
theorem flush_twice (q : Quasar) (id : UUID) (p : Nat) (ot : openTree)
    (hm : q.openTrees (UUIDToMapKey id) = some p) (hp : q.heap[p]? = some ot)
    (he : ot.expired = false) :
    ∃ q1 e, Flush q id = some (q1, e) ∧
      q1.committed = q.committed ++ [(ot.id, ot.store)] ∧
      q1.openTrees (UUIDToMapKey id) = none ∧
      (NewWriteQTree q ot.id = none →
        e = Ending.returns none ∧ q1.panicked = q.panicked ∧
        Flush q1 id = some (q1, Ending.returns (some Error.ErrNoSuchStream))) ∧
      (∀ err, NewWriteQTree q ot.id = some err →
        e = Ending.panics err ∧ q1.panicked = some err) := by
  refine ⟨_, _, Flush_open hm hp he, rfl, by simp, ?_, ?_⟩
  · intro hw
    have hw2 : q.bs q.committed ot.id = none := hw
    refine ⟨by rw [hw], by simp [Commit, NewWriteQTree, hw2], ?_⟩
    apply Flush_none
    simp
  · intro err hw
    have hw2 : q.bs q.committed ot.id = some err := hw
    exact ⟨by rw [hw], by simp [Commit, NewWriteQTree, hw2]⟩

/-- Witness of `flush_twice`: one open buffer, holding one record of stream 7, on a block
store that opens every write tree. -/
theorem flush_twice_witness :
    ∃ q1, Flush { cfg := DefaultQuasarConfig, bs := fun _ _ => none,
                  openTrees := fun k => if k = 7 then some 0 else none,
                  heap := [{ expired := false, store := [{ Time := 1, Val := 1 }], id := 7,
                             exmtx := false }],
                  committed := [], panicked := none } 7 = some (q1, Ending.returns none) ∧
      q1.committed = [(7, [{ Time := 1, Val := 1 }])] ∧
      q1.panicked = none ∧
      Flush q1 7 = some (q1, Ending.returns (some Error.ErrNoSuchStream)) := by
  obtain ⟨q1, e, h1, h2, _, h4, _⟩ := flush_twice
    { cfg := DefaultQuasarConfig, bs := fun _ _ => none,
      openTrees := fun k => if k = 7 then some 0 else none,
      heap := [{ expired := false, store := [{ Time := 1, Val := 1 }], id := 7,
                 exmtx := false }],
      committed := [], panicked := none } 7 0
    { expired := false, store := [{ Time := 1, Val := 1 }], id := 7, exmtx := false }
    rfl rfl rfl
  obtain ⟨k1, k2, k3⟩ := h4 rfl
  subst k1
  exact ⟨q1, h1, h2, k2, k3⟩

/-- C3 as stated fails: after `InsertValues` of one record on stream 7 the buffer is open;
the first `Flush` returns `nil`, the second returns `ErrNoSuchStream`. -/
theorem flush_twice_counterexample :
    (InsertValues (NewQuasar DefaultQuasarConfig (fun _ _ => none)) 7
        [{ Time := 1, Val := 1 }]).map
        (fun q => (q.openTrees (UUIDToMapKey 7), q.heap))
      = some (some 0, [{ expired := false, store := [{ Time := 1, Val := 1 }], id := 7,
                         exmtx := false }]) ∧
    ((InsertValues (NewQuasar DefaultQuasarConfig (fun _ _ => none)) 7
        [{ Time := 1, Val := 1 }]).bind
        (fun q => Flush q 7)).map Prod.snd = some (Ending.returns none) ∧
    (((InsertValues (NewQuasar DefaultQuasarConfig (fun _ _ => none)) 7
        [{ Time := 1, Val := 1 }]).bind
        (fun q => Flush q 7)).bind (fun x => Flush x.1 7)).map Prod.snd
      = some (Ending.returns (some Error.ErrNoSuchStream)) := by
  refine ⟨by decide, by decide, by decide⟩

/-- C4 (flush on an absent stream), amended.  When the stream has no entry in
`openTrees`, `Flush` returns `ErrNoSuchStream` together with the unchanged state (no
commit, same `openTrees`), and `Flush` returns `ErrNoSuchStream` in no other case.  On
an expired entry it returns `nil` with the state unchanged.  On an open entry it hands
the buffer to `Commit` and returns `nil` when the write tree of the stream opens; when
`NewWriteQTree` fails, the call panics in `Commit` and does not return. -/
theorem flush_absent (q : Quasar) (id : UUID) :
    (q.openTrees (UUIDToMapKey id) = none →
      Flush q id = some (q, Ending.returns (some Error.ErrNoSuchStream))) ∧
    (∀ q1, Flush q id = some (q1, Ending.returns (some Error.ErrNoSuchStream)) →
      q.openTrees (UUIDToMapKey id) = none) ∧
    (∀ p ot, q.openTrees (UUIDToMapKey id) = some p → q.heap[p]? = some ot →
      ot.expired = true → Flush q id = some (q, Ending.returns none)) ∧
    (∀ p ot, q.openTrees (UUIDToMapKey id) = some p → q.heap[p]? = some ot →
      ot.expired = false →
      ∃ q1, q1.committed = q.committed ++ [(ot.id, ot.store)] ∧
        (NewWriteQTree q ot.id = none →
          Flush q id = some (q1, Ending.returns none) ∧ q1.panicked = q.panicked) ∧
        (∀ err, NewWriteQTree q ot.id = some err →
          Flush q id = some (q1, Ending.panics err) ∧ q1.panicked = some err)) := by
  refine ⟨fun hm => Flush_none hm, ?_, ?_, ?_⟩
  · intro q1 h
    cases hm : q.openTrees (UUIDToMapKey id) with
    | none => rfl
    | some p =>
      cases hp : q.heap[p]? with
      | none =>
        unfold Flush at h
        rw [hm] at h
        simp [hp] at h
      | some ot =>
        cases he : ot.expired with
        | true =>
          rw [Flush_expired hm hp he] at h
          simp at h
        | false =>
          rw [Flush_open hm hp he] at h
          cases hw : NewWriteQTree q ot.id with
          | none =>
            rw [hw] at h
            simp at h
          | some err =>
            rw [hw] at h
            simp at h
  · intro p ot hm hp he
    exact Flush_expired hm hp he
  · intro p ot hm hp he
    refine ⟨Commit { ot with expired := true }
      (deleteOT (setOT q p { ot with expired := true }) (UUIDToMapKey id)), rfl, ?_, ?_⟩
    · intro hw
      have hw2 : q.bs q.committed ot.id = none := hw
      refine ⟨?_, by simp [Commit, NewWriteQTree, hw2]⟩
      rw [Flush_open hm hp he, hw]
    · intro err hw
      have hw2 : q.bs q.committed ot.id = some err := hw
      refine ⟨?_, by simp [Commit, NewWriteQTree, hw2]⟩
      rw [Flush_open hm hp he, hw]

/-- Witness of `flush_absent`: no stream has an entry after `NewQuasar`. -/
theorem flush_absent_witness :
    Flush (NewQuasar DefaultQuasarConfig (fun _ _ => none)) 7
      = some (NewQuasar DefaultQuasarConfig (fun _ _ => none),
          Ending.returns (some Error.ErrNoSuchStream)) :=
  (flush_absent (NewQuasar DefaultQuasarConfig (fun _ _ => none)) 7).1 rfl

/-- C4 as stated fails on an open entry: on a block store that refuses the write tree of
stream 7, `InsertValues` of one record leaves the buffer of stream 7 open, and `Flush`
then panics in `Commit` (ll. 26-28) instead of returning `nil`. -/
theorem flush_absent_counterexample :
    (InsertValues (NewQuasar DefaultQuasarConfig
        (fun _ id => if id = 7 then some (Error.other 1) else none)) 7
        [{ Time := 1, Val := 1 }]).map
        (fun q => (q.openTrees (UUIDToMapKey 7), q.heap, q.panicked))
      = some (some 0, [{ expired := false, store := [{ Time := 1, Val := 1 }], id := 7,
                         exmtx := false }], none) ∧
    ((InsertValues (NewQuasar DefaultQuasarConfig
        (fun _ id => if id = 7 then some (Error.other 1) else none)) 7
        [{ Time := 1, Val := 1 }]).bind (fun q => Flush q 7)).map
        (fun x => (x.2, x.1.panicked))
      = some (Ending.panics (Error.other 1), some (Error.other 1)) := by
  refine ⟨by decide, by decide⟩

/-- C5 (no append to an expired buffer).  In every state in which `openTrees` holds an
expired buffer `b` for the stream `id`, the call `InsertValues(id, r)` completes as soon
as the commit of `b` is not in flight, and whenever it completes it has run ll. 128-140
on a buffer newly created at a fresh pointer, whose store is `r` at the early-trip test;
`b` itself is unchanged and is no longer the entry of the stream.  Moreover, in every
state, neither an atomic call (`InsertValues`, `Flush`, timer), also as a step of the
process, nor one of the two halves of the timer goroutine changes the store of a buffer
whose `expired` flag is set, and the flag stays set. -/
theorem no_append_to_expired (q : Quasar) :
    (∀ (id : UUID) (r : List Record) (p : Nat) (b : openTree),
      q.openTrees (UUIDToMapKey id) = some p → q.heap[p]? = some b → b.expired = true →
      (b.exmtx = false → ∃ q1, InsertValues q id r = some q1) ∧
      ∀ q1, InsertValues q id r = some q1 →
        q1 = appendAndTrip (lookupOrCreate (deleteOT q (UUIDToMapKey id)) id).1 id
          q.heap.length (newOpenTree id) r ∧
        (newOpenTree id).store ++ r = r ∧
        q.heap[q.heap.length]? = none ∧
        q1.heap[p]? = some b ∧
        q1.openTrees (UUIDToMapKey id) ≠ some p ∧
        ∃ nb, q1.heap[q.heap.length]? = some nb ∧ nb.store = r ∧ nb.id = id) ∧
    (∀ (op : Op) (q1 : Quasar) (p : Nat) (b : openTree),
      applyOp q op = some q1 → q.heap[p]? = some b → b.expired = true →
      ∃ b1, q1.heap[p]? = some b1 ∧ b1.store = b.store ∧ b1.expired = true) ∧
    (∀ (op : Op) (q1 : Quasar) (p : Nat) (b : openTree),
      step q op = some q1 → q.heap[p]? = some b → b.expired = true →
      ∃ b1, q1.heap[p]? = some b1 ∧ b1.store = b.store ∧ b1.expired = true) ∧
    (∀ (p0 p : Nat) (b : openTree), q.heap[p]? = some b → b.expired = true →
      (∃ b1, (timerExpire q p0).heap[p]? = some b1 ∧ b1.store = b.store ∧
        b1.expired = true) ∧
      (∃ b1, (timerCommit q p0).heap[p]? = some b1 ∧ b1.store = b.store ∧
        b1.expired = true)) := by
  refine ⟨?_, ?_, ?_, ?_⟩
  · intro id r p b hm hp he
    cases hx : b.exmtx with
    | true =>
      refine ⟨fun h => Bool.noConfusion h, fun q1 h => ?_⟩
      rw [InsertValues_blocked r hm hp he hx] at h
      cases h
    | false =>
      have hiv := InsertValues_expired r hm hp he hx
      refine ⟨fun _ => ⟨_, hiv⟩, fun q1 h => ?_⟩
      rw [hiv] at h
      simp only [Option.some.injEq] at h
      subst h
      have hd : (deleteOT q (UUIDToMapKey id)).openTrees (UUIDToMapKey id) = none := by simp
      obtain ⟨c1, _, c3⟩ := create_heap hd
      obtain ⟨t, ht, hts, hti, hcase⟩ := appendAndTrip_shape
        (lookupOrCreate (deleteOT q (UUIDToMapKey id)) id).1 id q.heap.length
        (newOpenTree id) r
      have hplt : p < q.heap.length := heap_lt hp
      refine ⟨rfl, by simp [newOpenTree], by simp, ?_, ?_, t, ?_, ?_, ?_⟩
      · rw [ht, c1, deleteOT_heap, List.getElem?_set_ne (by omega)]
        exact append_lookup hp
      · rcases hcase with ⟨_, ho⟩ | ⟨_, ho⟩
        · rw [ho, c3]
          simp
          omega
        · rw [ho]
          simp
      · rw [ht, c1, deleteOT_heap]
        simp
      · rw [hts]
        simp [newOpenTree]
      · rw [hti]
        rfl
  · intro op q1 p b hs hb he
    exact ⟨b, applyOp_keeps q q1 op p b hs hb he, rfl, he⟩
  · intro op q1 p b hs hb he
    exact ⟨b, step_keeps q q1 op p b hs hb he, rfl, he⟩
  · intro p0 p b hb he
    exact ⟨⟨b, timerExpire_keeps q p0 p b hb he, rfl, he⟩, timerCommit_keeps q p0 p b hb he⟩

/-- Witness of `no_append_to_expired`: stream 7 has an expired, committed buffer at pointer
0; inserting one record leaves that buffer as it is. -/
theorem no_append_to_expired_witness :
    ∀ q1, InsertValues
        { cfg := DefaultQuasarConfig, bs := fun _ _ => none,
          openTrees := fun k => if k = 7 then some 0 else none,
          heap := [{ expired := true, store := [{ Time := 1, Val := 1 }], id := 7,
                     exmtx := false }],
          committed := [(7, [{ Time := 1, Val := 1 }])], panicked := none } 7
          [{ Time := 2, Val := 2 }]
        = some q1 →
      q1.heap[0]? = some { expired := true, store := [{ Time := 1, Val := 1 }], id := 7,
                           exmtx := false } := by
  intro q1 h
  exact (((no_append_to_expired
    { cfg := DefaultQuasarConfig, bs := fun _ _ => none,
      openTrees := fun k => if k = 7 then some 0 else none,
      heap := [{ expired := true, store := [{ Time := 1, Val := 1 }], id := 7,
                 exmtx := false }],
      committed := [(7, [{ Time := 1, Val := 1 }])], panicked := none }).1 7
      [{ Time := 2, Val := 2 }] 0
    { expired := true, store := [{ Time := 1, Val := 1 }], id := 7, exmtx := false }
    rfl rfl rfl).2 q1 h).2.2.2.1

/-- The calls of `Commit` made by `InsertValues` and by `Flush` remove the entry of the
stream. -/
theorem commit_removes_entry (q : Quasar) (id : UUID) :
    (∀ (r : List Record) (q1 : Quasar), InsertValues q id r = some q1 →
      q1.committed ≠ q.committed → q1.openTrees (UUIDToMapKey id) = none) ∧
    (∀ (q1 : Quasar) (e : Ending), Flush q id = some (q1, e) →
      q1.committed ≠ q.committed → q1.openTrees (UUIDToMapKey id) = none) := by
  constructor
  · intro r q1 h hne
    rcases InsertValues_cases q id r with hn | ⟨q0, p0, ot0, h1, h2, _, _, _⟩
    · rw [hn] at h
      cases h
    · rw [h1] at h
      simp only [Option.some.injEq] at h
      subst h
      obtain ⟨t, _, _, _, hcase⟩ := appendAndTrip_shape q0 id p0 ot0 r
      rcases hcase with ⟨hc, _⟩ | ⟨_, ho⟩
      · exact absurd (hc.trans h2) hne
      · exact ho
  · intro q1 e h hne
    cases hm : q.openTrees (UUIDToMapKey id) with
    | none =>
      rw [Flush_none hm] at h
      simp only [Option.some.injEq, Prod.mk.injEq] at h
      exact absurd (congrArg Quasar.committed h.1.symm) hne
    | some p0 =>
      cases h0 : q.heap[p0]? with
      | none =>
        unfold Flush at h
        rw [hm] at h
        simp [h0] at h
      | some ot0 =>
        cases he0 : ot0.expired with
        | true =>
          rw [Flush_expired hm h0 he0] at h
          simp only [Option.some.injEq, Prod.mk.injEq] at h
          exact absurd (congrArg Quasar.committed h.1.symm) hne
        | false =>
          rw [Flush_open hm h0 he0] at h
          simp only [Option.some.injEq, Prod.mk.injEq] at h
          rw [← h.1]
          simp

/-- C6 (entry after a commit), amended: after a commit made by `InsertValues` (early
trip) or by `Flush` the stream has no entry in `openTrees`; after the commit made by the
timer firing on an open buffer the map `openTrees` is as before, so the entry of the
stream stays and points to the buffer, which is now expired with its store unchanged
(and with `exmtx` free again, unless the commit panicked); a timer firing on an expired
buffer commits nothing and changes nothing. -/
theorem commit_entry (q : Quasar) :
    (∀ (id : UUID) (r : List Record) (q1 : Quasar), InsertValues q id r = some q1 →
      q1.committed ≠ q.committed → q1.openTrees (UUIDToMapKey id) = none) ∧
    (∀ (id : UUID) (q1 : Quasar) (e : Ending), Flush q id = some (q1, e) →
      q1.committed ≠ q.committed → q1.openTrees (UUIDToMapKey id) = none) ∧
    (∀ (p : Nat) (ot : openTree), q.heap[p]? = some ot → ot.expired = false →
      (timerFire q p).committed = q.committed ++ [(ot.id, ot.store)] ∧
      (timerFire q p).openTrees = q.openTrees ∧
      (timerFire q p).heap[p]?
        = some { ot with expired := true, exmtx := (NewWriteQTree q ot.id).isSome } ∧
      (timerFire q p).panicked =
        match NewWriteQTree q ot.id with
        | some err => some err
        | none => q.panicked) ∧
    (∀ (p : Nat) (ot : openTree), q.heap[p]? = some ot → ot.expired = true →
      timerFire q p = q) := by
  refine ⟨fun id => (commit_removes_entry q id).1, fun id => (commit_removes_entry q id).2,
    ?_, ?_⟩
  · intro p ot hp he
    obtain ⟨hh, hc, ho, _, hpn⟩ := timerFire_open hp he
    refine ⟨hc, ho, ?_, hpn⟩
    rw [hh, List.getElem?_set_self (heap_lt hp)]
  · intro p ot hp he
    exact timerFire_idle (Or.inr ⟨ot, hp, he⟩)

/-- Witness of `commit_entry`: the timer of the open buffer of stream 7 fires; the
buffer is committed and the entry of stream 7 is still there. -/
theorem commit_entry_witness :
    (timerFire
        { cfg := DefaultQuasarConfig, bs := fun _ _ => none,
          openTrees := fun k => if k = 7 then some 0 else none,
          heap := [{ expired := false, store := [{ Time := 1, Val := 1 }], id := 7,
                     exmtx := false }],
          committed := [], panicked := none } 0).committed = [(7, [{ Time := 1, Val := 1 }])] ∧
    (timerFire
        { cfg := DefaultQuasarConfig, bs := fun _ _ => none,
          openTrees := fun k => if k = 7 then some 0 else none,
          heap := [{ expired := false, store := [{ Time := 1, Val := 1 }], id := 7,
                     exmtx := false }],
          committed := [], panicked := none } 0).openTrees 7 = some 0 := by
  obtain ⟨h1, h2, _⟩ := (commit_entry
    { cfg := DefaultQuasarConfig, bs := fun _ _ => none,
      openTrees := fun k => if k = 7 then some 0 else none,
      heap := [{ expired := false, store := [{ Time := 1, Val := 1 }], id := 7,
                 exmtx := false }],
      committed := [], panicked := none }).2.2.1 0
    { expired := false, store := [{ Time := 1, Val := 1 }], id := 7, exmtx := false } rfl rfl
  exact ⟨h1, by rw [h2]; rfl⟩

/-- C6 as stated fails: `InsertValues` of one record on stream 7 leaves an open buffer and
commits nothing; when its timer fires the record is committed, and stream 7 still has
its entry in `openTrees`. -/
theorem commit_entry_counterexample :
    (InsertValues (NewQuasar DefaultQuasarConfig (fun _ _ => none)) 7
        [{ Time := 1, Val := 1 }]).map
        (fun q => (q.committed, q.heap))
      = some ([], [{ expired := false, store := [{ Time := 1, Val := 1 }], id := 7,
                     exmtx := false }]) ∧
    (InsertValues (NewQuasar DefaultQuasarConfig (fun _ _ => none)) 7
        [{ Time := 1, Val := 1 }]).map
        (fun q => ((timerFire q 0).committed, (timerFire q 0).openTrees (UUIDToMapKey 7)))
      = some ([(7, [{ Time := 1, Val := 1 }])], some 0) := by
  refine ⟨by decide, by decide⟩

/-- C7 (flush during a commit): the code at the failing input.  After `InsertValues` of
one record on stream 7 and the first half of the timer goroutine (ll. 103-110), the
buffer is expired, `exmtx` is held and the record is not yet committed; `Flush` returns
`nil` in that very state: `exmtx` is still held and the commit log is still empty.  The
sibling `InsertValues` does wait in that state (ll. 121-124): it has no atomic result. -/
theorem flush_during_commit :
    ((InsertValues (NewQuasar DefaultQuasarConfig (fun _ _ => none)) 7
        [{ Time := 1, Val := 1 }]).map (fun q => timerExpire q 0)).map
        (fun q => (q.openTrees (UUIDToMapKey 7), q.heap, q.committed))
      = some (some 0, [{ expired := true, store := [{ Time := 1, Val := 1 }], id := 7,
                         exmtx := true }], []) ∧
    (((InsertValues (NewQuasar DefaultQuasarConfig (fun _ _ => none)) 7
        [{ Time := 1, Val := 1 }]).map (fun q => timerExpire q 0)).bind
        (fun q => Flush q 7)).map (fun x => (x.2, x.1.heap, x.1.committed))
      = some (Ending.returns none,
          [{ expired := true, store := [{ Time := 1, Val := 1 }], id := 7, exmtx := true }],
          []) ∧
    (((InsertValues (NewQuasar DefaultQuasarConfig (fun _ _ => none)) 7
        [{ Time := 1, Val := 1 }]).map (fun q => timerExpire q 0)).bind
        (fun q => Flush q 7)).map (fun x => x.1.panicked) = some none ∧
    (((InsertValues (NewQuasar DefaultQuasarConfig (fun _ _ => none)) 7
        [{ Time := 1, Val := 1 }]).map (fun q => timerExpire q 0)).bind
        (fun q => InsertValues q 7 [])).isNone = true := by
  refine ⟨by decide, by decide, by decide, by decide⟩

theorem endRefset_foldl (erefd : List Nat) (m : Nat → Option Bool) (a : Nat) :
    erefd.foldl (fun m v => Function.update m v (some true)) m a
      = if a ∈ erefd then some true else m a := by
  induction erefd generalizing m with
  | nil => simp
  | cons v rest ih =>
    rw [List.foldl_cons, ih]
    by_cases h1 : a ∈ rest
    · simp [h1]
    · by_cases h2 : a = v
      · subst h2
        simp [h1]
      · simp [h1, h2, Function.update_apply]

/-- The keep set holds exactly the referenced addresses. -/
theorem endRefset_spec (erefd : List Nat) (a : Nat) :
    endRefset erefd a = if a ∈ erefd then some true else none := by
  unfold endRefset
  rw [endRefset_foldl]


/-- C8 (GC keep set), amended.  When the superblock of generation `stop` exists and the
read tree at that generation opens, `UnlinkBlocks(id, 0, stop)` returns `nil` after
asking the block store to unlink the generations `(0, stop)` and then to free blocks in
the range from 0 to the MIBID of that superblock, with a keep set that holds an address
if and only if `GetAllReferencedVAddrs` of the tree opened at `stop` returns it.  When
the superblock exists and the read tree does not open, the call panics with the error
of `NewReadQTree`; when the superblock does not exist it panics as well.  For every
`start != 0` the call panics, whatever the superblock and the tree.  Every panic leaves
the block store in the state in which the call was entered: nothing has been
unlinked. -/
theorem unlink_keep_set {BS Tree : Type} (I : BlockStore BS Tree) (bs : BS) (id : UUID)
    (stop : Nat) :
    (∀ (sb : Superblock) (tree : Tree), I.LoadSuperblock bs id stop = some sb →
      I.NewReadQTree bs id stop = Except.ok tree →
      UnlinkBlocks I bs id 0 stop =
        ((I.UnlinkBlocks (I.UnlinkGenerations bs id 0 stop) id 0 sb.MIBID
            (endRefset (I.GetAllReferencedVAddrs (I.UnlinkGenerations bs id 0 stop) tree))).1,
          Except.ok none) ∧
      ∀ a, endRefset (I.GetAllReferencedVAddrs (I.UnlinkGenerations bs id 0 stop) tree) a
          = some true ↔
        a ∈ I.GetAllReferencedVAddrs (I.UnlinkGenerations bs id 0 stop) tree) ∧
    (∀ (sb : Superblock) (err : Error), I.LoadSuperblock bs id stop = some sb →
      I.NewReadQTree bs id stop = Except.error err →
      UnlinkBlocks I bs id 0 stop = (bs, Except.error (Panic.treeError err))) ∧
    (I.LoadSuperblock bs id stop = none →
      ∀ start, UnlinkBlocks I bs id start stop
        = (bs, Except.error Panic.noSuchEndGeneration)) ∧
    (∀ start, start ≠ 0 →
      UnlinkBlocks I bs id start stop =
        (bs, Except.error
          (match I.LoadSuperblock bs id stop with
           | none => Panic.noSuchEndGeneration
           | some _ => Panic.onlySupportStartZero))) := by
  refine ⟨?_, ?_, ?_, ?_⟩
  · intro sb tree hsb htree
    refine ⟨by simp [UnlinkBlocks, hsb, htree], fun a => ?_⟩
    rw [endRefset_spec]
    by_cases h : a ∈ I.GetAllReferencedVAddrs (I.UnlinkGenerations bs id 0 stop) tree
    · simp [h]
    · simp [h]
  · intro sb err hsb htree
    simp [UnlinkBlocks, hsb, htree]
  · intro hsb start
    simp [UnlinkBlocks, hsb]
  · intro start hs
    cases hsb : I.LoadSuperblock bs id stop with
    | none => simp [UnlinkBlocks, hsb]
    | some sb => simp [UnlinkBlocks, hsb, hs]

/-- Witness of `unlink_keep_set`: on the logging block store, `UnlinkBlocks(7, 0, 3)`
unlinks the generations `(0, 3)` and then frees in the range `(0, 10)` while keeping the
addresses 1, 2 and 5; with `start = 1` it panics and nothing is logged. -/
theorem unlink_keep_set_witness :
    UnlinkBlocks logStore [] 7 0 3 =
      ([BSCall.unlinkGenerations 7 0 3, BSCall.unlinkBlocks 7 0 10 [1, 2, 5]],
        Except.ok none) ∧
    UnlinkBlocks logStore [] 7 1 3 = ([], Except.error Panic.onlySupportStartZero) := by
  obtain ⟨h1, _⟩ := (unlink_keep_set logStore [] 7 3).1 { Gen := 3, MIBID := 10 } [1, 2, 5]
    rfl rfl
  refine ⟨?_, (unlink_keep_set logStore [] 7 3).2.2.2 1 (by decide)⟩
  rw [h1]
  rfl

/-- C8 as stated fails: on the logging block store the superblock of generation 3 of
stream 9 exists, but its read tree does not open, and `UnlinkBlocks(9, 0, 3)` panics at
l. 259 before anything is unlinked. -/
theorem unlink_keep_set_counterexample :
    logStore.LoadSuperblock [] 9 3 = some { Gen := 3, MIBID := 10 } ∧
    UnlinkBlocks logStore [] 9 0 3 = ([], Except.error (Panic.treeError (Error.other 1))) :=
  ⟨rfl, rfl⟩

/-- The sibling handler: the status of a standard query is `OK` exactly when
`QueryValues` returned a nil error. -/
theorem standard_status {BS Tree : Type} (I : BlockStore BS Tree) (bs : BS) (uuid : UUID)
    (st et : Int) (ver : Nat) (resp : Response) :
    (handleQueryStandardValues I bs uuid st et ver resp).statusCode =
      if (QueryValues I bs uuid st et (if ver = 0 then I.LatestGeneration else ver)).2.2 = none
      then StatusCode.STATUSCODE_OK else StatusCode.STATUSCODE_INTERNALERROR := by
  unfold handleQueryStandardValues
  simp only
  split
  · next h => simp [h, SetPayload, SetStatusCode]
  · next h => simp [h, SetStatusCode]

/-- C9 (status of a statistical query): the code at the failing input.  Whatever
`QueryStatisticalValues` returns, the response carries `INTERNALERROR`, because l. 136
overwrites the status set by the `switch`; in particular on the logging block store the
query on stream 7 returns one record and a nil error, and the response that
`dispatchCommands` writes has status `INTERNALERROR` (with the records attached). -/
theorem statistical_status :
    (∀ (BS Tree : Type) (I : BlockStore BS Tree) (bs : BS) (uuid : UUID) (st et : Int)
        (pw ver : Nat) (resp : Response),
      (handleQueryStatisticalValues I bs uuid st et pw ver resp).statusCode
        = StatusCode.STATUSCODE_INTERNALERROR) ∧
    QueryStatisticalValues logStore [] 7 0 4 0 2
      = ([{ Time := 0, Count := 4, Min := 1, Mean := 2, Max := 4 }], 3, none) ∧
    dispatchCommands logStore []
        { echoTag := 5, body := RequestBody.QueryStatisticalValues 7 0 4 2 0 }
        { echoTag := 0, statusCode := StatusCode.STATUSCODE_OK, payload := Payload.void }
      = { echoTag := 5, statusCode := StatusCode.STATUSCODE_INTERNALERROR,
          payload := Payload.statisticalRecords 3
            [{ Time := 0, Count := 4, Min := 1, Mean := 2, Max := 4 }] } := by
  refine ⟨?_, by decide, by decide⟩
  intro BS Tree I bs uuid st et pw ver resp
  rfl

/-- The loop of ll. 144-156 leaves the entries below its start index alone and keeps the
length of `vlist`. -/
theorem versionLoop_below {BS Tree : Type} (I : BlockStore BS Tree) (bs : BS)
    (ull : List UUID) :
    ∀ (i : Nat) (resp : Response) (vlist : List Nat) (ulist : List (Option UUID)) (j : Nat),
      j < i → (versionLoop I bs ull i (resp, vlist, ulist)).2.1[j]? = vlist[j]? := by
  induction ull with
  | nil =>
    intro i resp vlist ulist j _
    rfl
  | cons v rest ih =>
    intro i resp vlist ulist j hj
    unfold versionLoop
    split
    · rfl
    · rw [ih (i + 1) resp _ _ j (by omega), List.getElem?_set_ne (by omega)]

/-- When every lookup of the list succeeds, the loop of ll. 144-156 stores the latest
generation of each stream at the position of its id. -/
theorem versionLoop_all_ok {BS Tree : Type} (I : BlockStore BS Tree) (bs : BS)
    (ull : List UUID) :
    ∀ (i : Nat) (resp : Response) (vlist : List Nat) (ulist : List (Option UUID)),
      (∀ v ∈ ull, (QueryGeneration I bs v).2 = none) → i + ull.length ≤ vlist.length →
      ∀ k (hk : k < ull.length),
        (versionLoop I bs ull i (resp, vlist, ulist)).2.1[i + k]?
          = some (QueryGeneration I bs ull[k]).1 := by
  induction ull with
  | nil =>
    intro i resp vlist ulist _ _ k hk
    simp at hk
  | cons v rest ih =>
    intro i resp vlist ulist hall hlen k hk
    have hv : (QueryGeneration I bs v).2 = none := hall v (by simp)
    simp only [List.length_cons] at hlen hk
    have hstep : versionLoop I bs (v :: rest) i (resp, vlist, ulist) =
        versionLoop I bs rest (i + 1)
          (resp, vlist.set i (QueryGeneration I bs v).1, ulist.set i (some v)) := by
      rw [versionLoop]
      split
      · next ver e heq =>
        rw [heq] at hv
        cases hv
      · next ver heq =>
        rw [heq]
    rw [hstep]
    cases k with
    | zero =>
      show (versionLoop I bs rest (i + 1) (resp, vlist.set i (QueryGeneration I bs v).1,
        ulist.set i (some v))).2.1[i]? = some (QueryGeneration I bs v).1
      rw [versionLoop_below I bs rest (i + 1) _ _ _ i (by omega),
        List.getElem?_set_self (by omega)]
    | succ k =>
      have := ih (i + 1) resp (vlist.set i (QueryGeneration I bs v).1) (ulist.set i (some v))
        (fun w hw => hall w (by simp [hw])) (by simp; omega) k (by omega)
      rw [show i + (k + 1) = i + 1 + k by omega, this]
      simp

/-- C10 (status of a version query): the code at the failing input.  Whatever the
lookups return, the response carries `OK`, because l. 157 overwrites the status set in
the loop; in particular on the logging block store stream 8 has no superblock,
`QueryGeneration` returns `ErrNoSuchStream` for it, and the response that
`dispatchCommands` writes for the list `[8]` has status `OK`, with a version list that
was never filled. -/
theorem version_status :
    (∀ (BS Tree : Type) (I : BlockStore BS Tree) (bs : BS) (ull : List UUID)
        (resp : Response),
      (handleQueryVersion I bs ull resp).statusCode = StatusCode.STATUSCODE_OK) ∧
    QueryGeneration logStore [] 8 = (0, some Error.ErrNoSuchStream) ∧
    dispatchCommands logStore [] { echoTag := 5, body := RequestBody.QueryVersion [8] }
        { echoTag := 0, statusCode := StatusCode.STATUSCODE_OK, payload := Payload.void }
      = { echoTag := 5, statusCode := StatusCode.STATUSCODE_OK,
          payload := Payload.versionList [none] [0] } ∧
    dispatchCommands logStore [] { echoTag := 5, body := RequestBody.QueryVersion [7, 8, 7] }
        { echoTag := 0, statusCode := StatusCode.STATUSCODE_OK, payload := Payload.void }
      = { echoTag := 5, statusCode := StatusCode.STATUSCODE_OK,
          payload := Payload.versionList [some 7, none, none] [3, 0, 0] } := by
  refine ⟨?_, by decide, by decide, by decide⟩
  intro BS Tree I bs ull resp
  rfl

end QuasarSpec
